import Mathlib

/-!
# Gamma control manager (types/wlr_gamma_control_v1.c)

A shallow embedding of the gamma control protocol implementation.

* Objects behind pointers are identified by natural numbers: an output by an
  output handle, a `wl_resource` by a resource handle.  `wl_resource_create`
  draws a handle that was never used before (`State.next_id`).
* Calls into the transport and into the output are recorded as a list of
  `Event`s, in call order.  Every handler returns the new state together with
  the events of that call.
* Outcomes the handler cannot control (allocation results, what `lseek`,
  `fcntl` and `read` return, whether the output accepts a ramp) are arguments.
* `uint32_t` and `size_t` values are natural numbers reduced modulo `2^32`
  and `2^64`; `off_t` and `ssize_t` values are integers.
-/

namespace GammaControl

/-- The struct wlr_gamma_control_v1: its session (`resource`) and the output it
targets.  The two list links of the C struct are the memberships in
`State.listeners` and in the manager's `controls`. -/
structure wlr_gamma_control_v1 where
  resource : Nat
  output : Nat
deriving DecidableEq, Repr

/-- The struct wlr_gamma_control_manager_v1: bound endpoints (`resources`) and
tracked control objects (`controls`), both in list order, head first. -/
structure wlr_gamma_control_manager_v1 where
  resources : List Nat
  controls : List wlr_gamma_control_v1
deriving DecidableEq, Repr

/-- The three channel tables handed to `wlr_output_set_gamma`. -/
abbrev Tables := List Nat × List Nat × List Nat

/-- Calls that leave the module.  `output_set_gamma gc output size tables` is
`wlr_output_set_gamma(output, size, r, g, b)`; `tables = none` stands for the
three NULL pointers; `gc` is the resource handle of the control object whose
`output` field the call dereferences (bookkeeping only).  `resource_create`
is `wl_resource_create` for the control interface, `endpoint_create` the same
call for the manager interface. -/
inductive Event where
  | resource_create (r : Nat)
  | endpoint_create (r : Nat)
  | send_failed (r : Nat)
  | send_gamma_size (r : Nat) (size : Nat)
  | post_error_invalid_gamma (r : Nat)
  | post_no_memory (r : Nat)
  | client_post_no_memory
  | output_set_gamma (gc : Nat) (output : Nat) (size : Nat) (tables : Option Tables)
  | resource_destroy (r : Nat)
  | global_destroy
  | malloc_table (bytes : Nat)
  | free_table
  | close (fd : Nat)
deriving DecidableEq, Repr

/-- What the output backend offers: whether `output->impl->set_gamma` is set,
and what `get_gamma_size` reports. -/
structure Env where
  impl_set_gamma : Nat → Bool
  get_gamma_size : Nat → Nat

/-- Modelled from the spec: the output's `gamma_size() -> uint32`, the function
wlr_output_get_gamma_size, whose body is in the output module. -/
def wlr_output_get_gamma_size (env : Env) (output : Nat) : Nat :=
  env.get_gamma_size output % 2 ^ 32

/-- The file descriptor passed to `set_gamma`, with the results the system
calls give on it: `lseek(fd, 0, SEEK_END)`, `fcntl(fd, F_GETFL, 0)`,
`fcntl(fd, F_SETFL, ..)`, `read(fd, table, table_size)`, and the `uint16_t`
samples the read leaves in the table. -/
structure Stream where
  fd : Nat
  fd_size : Int
  getfl : Int
  setfl : Int
  n_read : Int
  data : List Nat
deriving DecidableEq, Repr

/-- The state of the module: the manager (`none` when there is none), the
existing control sessions with their user data, the control objects subscribed
to their output's destroy signal (in subscription order), and the next unused
resource handle. -/
structure State where
  manager : Option wlr_gamma_control_manager_v1
  sessions : List (Nat × Option wlr_gamma_control_v1)
  listeners : List wlr_gamma_control_v1
  next_id : Nat
deriving DecidableEq, Repr

/-- The function wl_resource_set_user_data on the session table. -/
def wl_resource_set_user_data (sessions : List (Nat × Option wlr_gamma_control_v1))
    (r : Nat) (data : Option wlr_gamma_control_v1) :
    List (Nat × Option wlr_gamma_control_v1) :=
  sessions.map fun p => if p.1 = r then (p.1, data) else p

/-- The function gamma_control_from_resource: the user data of the session. -/
def gamma_control_from_resource (st : State) (r : Nat) : Option wlr_gamma_control_v1 :=
  match st.sessions.lookup r with
  | some data => data
  | none => none

/-- The function wl_list_remove on the manager's `controls` list. -/
def remove_control (m : Option wlr_gamma_control_manager_v1) (gc : wlr_gamma_control_v1) :
    Option wlr_gamma_control_manager_v1 :=
  m.map fun m => { m with controls := m.controls.filter fun c => decide (c ≠ gc) }

/-- The function gamma_control_destroy. -/
def gamma_control_destroy (st : State) (gamma_control : Option wlr_gamma_control_v1) :
    State × List Event :=
  match gamma_control with
  | none => (st, [])
  | some gc =>
    ({ st with
        sessions := wl_resource_set_user_data st.sessions gc.resource none
        listeners := st.listeners.filter fun c => decide (c ≠ gc)
        manager := remove_control st.manager gc },
     [Event.output_set_gamma gc.resource gc.output 0 none])

/-- The function gamma_control_send_failed. -/
def gamma_control_send_failed (st : State) (gamma_control : wlr_gamma_control_v1) :
    State × List Event :=
  let d := gamma_control_destroy st (some gamma_control)
  (d.1, Event.send_failed gamma_control.resource :: d.2)

/-- The function gamma_control_handle_resource_destroy. -/
def gamma_control_handle_resource_destroy (st : State) (resource : Nat) :
    State × List Event :=
  gamma_control_destroy st (gamma_control_from_resource st resource)

/-- The end of the transport's `wl_resource_destroy`: the resource leaves the
table of existing sessions. -/
def release_session (st : State) (resource : Nat) : State :=
  { st with sessions := st.sessions.filter fun p => decide (p.1 ≠ resource) }

/-- The transport's `wl_resource_destroy` on a control session: it runs the
destroy handler installed by `wl_resource_set_implementation`, then releases
the resource. -/
def wl_resource_destroy (st : State) (resource : Nat) : State × List Event :=
  let d := gamma_control_handle_resource_destroy st resource
  (release_session d.1 resource, d.2 ++ [Event.resource_destroy resource])

/-- The function gamma_control_handle_destroy. -/
def gamma_control_handle_destroy (st : State) (resource : Nat) : State × List Event :=
  wl_resource_destroy st resource

/-- The function gamma_control_handle_output_destroy, for one listener. -/
def gamma_control_handle_output_destroy (st : State) (gamma_control : wlr_gamma_control_v1) :
    State × List Event :=
  gamma_control_destroy st (some gamma_control)

/-- The expression `ramp_size * 3 * sizeof(uint16_t)`: the product by 3 is
taken in `uint32_t`, the product by the size in `size_t`. -/
def table_size (ramp_size : Nat) : Nat :=
  ((ramp_size * 3) % 2 ^ 32 * 2) % 2 ^ 64

/-- The cast `(size_t)x` of a signed 64-bit value. -/
def to_size_t (x : Int) : Nat :=
  (x % 2 ^ 64).toNat

/-- The three pointers `r = table`, `g = table + ramp_size`,
`b = table + 2 * ramp_size` of gamma_control_handle_set_gamma after a full
read, as the `ramp_size` samples `wlr_output_set_gamma` takes from each; the
table holds `table_size` bytes, two per sample.  The offset `2 * ramp_size`
is a `uint32_t` product. -/
def set_gamma_tables (env : Env) (gamma_control : wlr_gamma_control_v1) (fd : Stream) :
    Tables :=
  let ramp_size := wlr_output_get_gamma_size env gamma_control.output
  let table := fd.data.take (table_size ramp_size / 2)
  let r := table.take ramp_size
  let g := (table.drop ramp_size).take ramp_size
  let b := (table.drop ((2 * ramp_size) % 2 ^ 32)).take ramp_size
  (r, g, b)

/-- The function gamma_control_handle_set_gamma. -/
def gamma_control_handle_set_gamma (env : Env) (st : State) (gamma_control_resource : Nat)
    (fd : Stream) (malloc_ok : Bool) (output_ok : Bool) : State × List Event :=
  match gamma_control_from_resource st gamma_control_resource with
  | none => (st, [Event.close fd.fd])
  | some gamma_control =>
    let ramp_size := wlr_output_get_gamma_size env gamma_control.output
    let table_size := table_size ramp_size
    if fd.fd_size ≠ -1 ∧ to_size_t fd.fd_size ≠ table_size then
      (st, [Event.post_error_invalid_gamma gamma_control_resource, Event.close fd.fd])
    else if fd.getfl = -1 then
      let f := gamma_control_send_failed st gamma_control
      (f.1, f.2 ++ [Event.close fd.fd])
    else if fd.setfl = -1 then
      let f := gamma_control_send_failed st gamma_control
      (f.1, f.2 ++ [Event.close fd.fd])
    else if malloc_ok = false then
      (st, [Event.post_no_memory gamma_control_resource, Event.close fd.fd])
    else if fd.n_read = -1 ∨ to_size_t fd.n_read ≠ table_size then
      let f := gamma_control_send_failed st gamma_control
      (f.1, Event.malloc_table table_size :: f.2 ++ [Event.free_table, Event.close fd.fd])
    else
      let apply := Event.output_set_gamma gamma_control.resource gamma_control.output
        ramp_size (some (set_gamma_tables env gamma_control fd))
      if output_ok = false then
        let f := gamma_control_send_failed st gamma_control
        (f.1, Event.malloc_table table_size :: apply :: f.2
          ++ [Event.free_table, Event.close fd.fd])
      else
        (st, [Event.malloc_table table_size, apply, Event.free_table])

/-- The set-up of a control object in gamma_control_manager_get_gamma_control
once both allocations succeeded: the new session has the object as user data
(`wl_resource_set_implementation`) and the object listens to its output's
destroy signal (`wl_signal_add`); its `link` is initialised but in no list. -/
def new_gamma_control (st : State) (gamma_control : wlr_gamma_control_v1) : State :=
  { st with
      sessions := (gamma_control.resource, some gamma_control) :: st.sessions
      listeners := st.listeners ++ [gamma_control]
      next_id := st.next_id + 1 }

/-- The call `wl_list_insert(&manager->controls, &gamma_control->link)`. -/
def insert_control (st : State) (m : wlr_gamma_control_manager_v1)
    (gamma_control : wlr_gamma_control_v1) : State :=
  { st with manager := some { m with controls := gamma_control :: m.controls } }

/-- The function gamma_control_manager_get_gamma_control, on the manager `m`
that `gamma_control_manager_from_resource` returns. -/
def gamma_control_manager_get_gamma_control (env : Env) (st : State)
    (m : wlr_gamma_control_manager_v1) (output : Nat) (calloc_ok : Bool)
    (resource_ok : Bool) : State × List Event :=
  if calloc_ok = false then
    (st, [Event.client_post_no_memory])
  else if resource_ok = false then
    (st, [Event.client_post_no_memory])
  else
    let gamma_control : wlr_gamma_control_v1 := { resource := st.next_id, output := output }
    let s1 : State := new_gamma_control st gamma_control
    if env.impl_set_gamma output = false then
      let d := gamma_control_destroy s1 (some gamma_control)
      (d.1, Event.resource_create gamma_control.resource
        :: Event.send_failed gamma_control.resource :: d.2)
    else
      match m.controls.find? fun gc => decide (gc.output = output) with
      | some gc =>
        let d := gamma_control_destroy s1 (some gc)
        (d.1, Event.resource_create gamma_control.resource
          :: Event.send_failed gc.resource :: d.2)
      | none =>
        (insert_control s1 m gamma_control,
         [Event.resource_create gamma_control.resource,
          Event.send_gamma_size gamma_control.resource
            (wlr_output_get_gamma_size env output)])

/-- The function gamma_control_manager_handle_resource_destroy: the endpoint
leaves the manager's `resources` list. -/
def gamma_control_manager_handle_resource_destroy (st : State) (resource : Nat) : State :=
  { st with
      manager := st.manager.map fun m =>
        { m with resources := m.resources.filter fun r => decide (r ≠ resource) } }

/-- The transport's `wl_resource_destroy` on a bound manager endpoint. -/
def wl_resource_destroy_endpoint (st : State) (resource : Nat) : State × List Event :=
  (gamma_control_manager_handle_resource_destroy st resource,
   [Event.resource_destroy resource])

/-- The function gamma_control_manager_bind, on the manager `m` passed as
`data`. -/
def gamma_control_manager_bind (st : State) (m : wlr_gamma_control_manager_v1)
    (resource_ok : Bool) : State × List Event :=
  if resource_ok = false then
    (st, [Event.client_post_no_memory])
  else
    ({ st with
        manager := some { m with resources := st.next_id :: m.resources }
        next_id := st.next_id + 1 },
     [Event.endpoint_create st.next_id])

/-- The output's destroy signal: every listener subscribed for `output` is
notified, in subscription order. -/
def notify_output_listeners (st : State) : List wlr_gamma_control_v1 → State × List Event
  | [] => (st, [])
  | gc :: rest =>
    let d := gamma_control_handle_output_destroy st gc
    let k := notify_output_listeners d.1 rest
    (k.1, d.2 ++ k.2)

/-- Modelled from the spec: the output's `on_destroy` signal, the emission of
`output->events.destroy` by the output module. -/
def output_destroy (st : State) (output : Nat) : State × List Event :=
  notify_output_listeners st (st.listeners.filter fun gc => decide (gc.output = output))

/-- The first loop of wlr_gamma_control_manager_v1_destroy:
`wl_resource_destroy(gamma_control->resource)` for each tracked control. -/
def destroy_controls (st : State) : List wlr_gamma_control_v1 → State × List Event
  | [] => (st, [])
  | gc :: rest =>
    let d := wl_resource_destroy st gc.resource
    let k := destroy_controls d.1 rest
    (k.1, d.2 ++ k.2)

/-- The second loop of wlr_gamma_control_manager_v1_destroy:
`wl_resource_destroy(resource)` for each bound endpoint. -/
def destroy_resources (st : State) : List Nat → State × List Event
  | [] => (st, [])
  | r :: rest =>
    let d := wl_resource_destroy_endpoint st r
    let k := destroy_resources d.1 rest
    (k.1, d.2 ++ k.2)

/-- The state of wlr_gamma_control_manager_v1_destroy after its two loops,
before the global is released and the manager freed. -/
def manager_destroy_loops (st : State) (m : wlr_gamma_control_manager_v1) :
    State × List Event :=
  let c := destroy_controls st m.controls
  let rs := match c.1.manager with
    | some m1 => m1.resources
    | none => []
  let e := destroy_resources c.1 rs
  (e.1, c.2 ++ e.2)

/-- The function wlr_gamma_control_manager_v1_destroy; the argument is
`st.manager`, `none` being the null pointer. -/
def wlr_gamma_control_manager_v1_destroy (st : State) : State × List Event :=
  match st.manager with
  | none => (st, [])
  | some m =>
    let l := manager_destroy_loops st m
    ({ l.1 with manager := none }, l.2 ++ [Event.global_destroy])

/-- The function handle_display_destroy. -/
def handle_display_destroy (st : State) : State × List Event :=
  wlr_gamma_control_manager_v1_destroy st

/-- The function wlr_gamma_control_manager_v1_create: NULL when either
allocation fails, otherwise a manager with two empty lists. -/
def wlr_gamma_control_manager_v1_create (calloc_ok : Bool) (global_ok : Bool) : State :=
  { manager :=
      if calloc_ok = false then none
      else if global_ok = false then none
      else some { resources := [], controls := [] }
    sessions := []
    listeners := []
    next_id := 0 }

/-- What can happen to the module after creation: the transport delivers a
request on an existing resource, releases a resource, an output is destroyed,
or the display is. -/
inductive Op where
  | bind (resource_ok : Bool)
  | get_gamma_control (manager_resource : Nat) (output : Nat) (calloc_ok : Bool)
      (resource_ok : Bool)
  | set_gamma (resource : Nat) (fd : Stream) (malloc_ok : Bool) (output_ok : Bool)
  | destroy (resource : Nat)
  | endpoint_destroy (manager_resource : Nat)
  | output_destroy (output : Nat)
  | manager_destroy
deriving DecidableEq, Repr

/-- Whether a control session exists (has been created and not released). -/
def session_exists (st : State) (r : Nat) : Bool :=
  (st.sessions.lookup r).isSome

/-- One delivery.  The transport only delivers requests on resources that
exist: a bind needs the global, a manager request a bound endpoint, a control
request an existing control session. -/
def step (env : Env) (st : State) : Op → State × List Event
  | Op.bind resource_ok =>
    match st.manager with
    | some m => gamma_control_manager_bind st m resource_ok
    | none => (st, [])
  | Op.get_gamma_control manager_resource output calloc_ok resource_ok =>
    match st.manager with
    | some m =>
      if manager_resource ∈ m.resources then
        gamma_control_manager_get_gamma_control env st m output calloc_ok resource_ok
      else (st, [])
    | none => (st, [])
  | Op.set_gamma resource fd malloc_ok output_ok =>
    if session_exists st resource then
      gamma_control_handle_set_gamma env st resource fd malloc_ok output_ok
    else (st, [])
  | Op.destroy resource =>
    if session_exists st resource then gamma_control_handle_destroy st resource
    else (st, [])
  | Op.endpoint_destroy manager_resource =>
    match st.manager with
    | some m =>
      if manager_resource ∈ m.resources then wl_resource_destroy_endpoint st manager_resource
      else (st, [])
    | none => (st, [])
  | Op.output_destroy output => output_destroy st output
  | Op.manager_destroy => wlr_gamma_control_manager_v1_destroy st

/-- A run of deliveries from a state: the final state and all events, in
order. -/
def run (env : Env) (st : State) : List Op → State × List Event
  | [] => (st, [])
  | op :: ops =>
    let s := step env st op
    let k := run env s.1 ops
    (k.1, s.2 ++ k.2)

/-- The states and traces reachable from wlr_gamma_control_manager_v1_create. -/
def Reachable (env : Env) (st : State) (trace : List Event) : Prop :=
  ∃ (calloc_ok global_ok : Bool) (ops : List Op),
    run env (wlr_gamma_control_manager_v1_create calloc_ok global_ok) ops = (st, trace)

/-- A control object is live when its session still has it as user data. -/
def live (st : State) (gc : wlr_gamma_control_v1) : Prop :=
  gamma_control_from_resource st gc.resource = some gc

instance (st : State) (gc : wlr_gamma_control_v1) : Decidable (live st gc) := by
  unfold live; infer_instance

/-- The tracked control objects: `manager->controls`. -/
def tracked (st : State) : List wlr_gamma_control_v1 :=
  match st.manager with
  | some m => m.controls
  | none => []

/-- The bound endpoints: `manager->resources`. -/
def bound (st : State) : List Nat :=
  match st.manager with
  | some m => m.resources
  | none => []

/-- A passthrough reset issued for the control object with session `r`:
`wlr_output_set_gamma(output, 0, NULL, NULL, NULL)`. -/
def is_reset_of (r : Nat) : Event → Bool
  | Event.output_set_gamma gc _ size tables => decide (gc = r ∧ size = 0 ∧ tables = none)
  | _ => false

/-- An event sent on session `r`: `failed`, `gamma_size`, a protocol error
or the no-memory error. -/
def on_session (r : Nat) : Event → Bool
  | Event.send_failed x => decide (x = r)
  | Event.send_gamma_size x _ => decide (x = r)
  | Event.post_error_invalid_gamma x => decide (x = r)
  | Event.post_no_memory x => decide (x = r)
  | _ => false

/-- A call of `wlr_output_set_gamma`, whatever its arguments. -/
def is_output_call : Event → Bool
  | Event.output_set_gamma _ _ _ _ => true
  | _ => false

/-- An event that concerns the control object with session `r`: one sent on
its session, or a `wlr_output_set_gamma` call made for it. -/
def touches (r : Nat) : Event → Bool
  | Event.output_set_gamma gc _ _ _ => decide (gc = r)
  | e => on_session r e

/-- The invariant of the reachable states. -/
structure WF (st : State) : Prop where
  key_lt : ∀ r, session_exists st r = true → r < st.next_id
  ud_res : ∀ r c, gamma_control_from_resource st r = some c → c.resource = r
  tracked_live : ∀ c ∈ tracked st, live st c
  listen_iff : ∀ c, c ∈ st.listeners ↔ live st c
  listen_nodup : st.listeners.Nodup
  tracked_outputs : (tracked st).Pairwise fun a b => a.output ≠ b.output

/-- What one or more deliveries from `st` to `st1` with events `ev` do to the
control session `r`: a session that exists without a control object stays so
and nothing concerns it; a live control object either stays live with no
reset, or is destroyed with exactly one reset on its output; a handle not yet
drawn gets no reset unless it is drawn and destroyed. -/
structure LocalStep (r : Nat) (st st1 : State) (ev : List Event) : Prop where
  mono : st.next_id ≤ st1.next_id
  inert : gamma_control_from_resource st r = none → r < st.next_id →
    gamma_control_from_resource st1 r = none ∧ ev.filter (touches r) = []
  active : ∀ c, gamma_control_from_resource st r = some c →
    (gamma_control_from_resource st1 r = some c ∧ ev.filter (is_reset_of r) = []) ∨
    (gamma_control_from_resource st1 r = none ∧
      ev.filter (is_reset_of r) = [Event.output_set_gamma r c.output 0 none])
  fresh : st.next_id ≤ r →
    ((gamma_control_from_resource st1 r).isSome = true ∨ st1.next_id ≤ r) →
    ev.filter (is_reset_of r) = []

/-- A delivery from `st` with result `p` keeps the invariant and treats every
session as `LocalStep` says. -/
def Sound (st : State) (p : State × List Event) : Prop :=
  WF p.1 ∧ ∀ r, LocalStep r st p.1 p.2

/-- Example backend: every output supports gamma, with 256 entries. -/
def env256 : Env := { impl_set_gamma := fun _ => true, get_gamma_size := fun _ => 256 }

/-- Example: a manager with one bound endpoint (handle 0). -/
def st_bound : State :=
  (run env256 (wlr_gamma_control_manager_v1_create true true) [Op.bind true]).1

/-- Example: client A holds the control of output 7 (session 1). -/
def st_one : State :=
  (run env256 st_bound [Op.get_gamma_control 0 7 true true]).1

/-- Example backend: only output 7 supports gamma, with 256 entries. -/
def env_mixed : Env :=
  { impl_set_gamma := fun o => decide (o = 7), get_gamma_size := fun _ => 256 }

/-- Example run: an endpoint is bound (handle 0) and client A gets the control
of output 7 (session 1). -/
def run_one : State × List Event :=
  run env_mixed (wlr_gamma_control_manager_v1_create true true)
    [Op.bind true, Op.get_gamma_control 0 7 true true]

/-- Example backend: every output supports gamma, with 2 entries. -/
def env2 : Env := { impl_set_gamma := fun _ => true, get_gamma_size := fun _ => 2 }

/-- Example stream: 12 bytes, six samples, everything succeeds. -/
def fd_full : Stream :=
  { fd := 5, fd_size := 12, getfl := 0, setfl := 0, n_read := 12,
    data := [10, 11, 20, 21, 30, 31] }

/-- Example stream: declared length 11, one byte short of 12. -/
def fd_short_declared : Stream :=
  { fd := 5, fd_size := 11, getfl := 0, setfl := 0, n_read := 11,
    data := [10, 11, 20, 21, 30] }

/-- Example stream: a pipe (`lseek` fails) that yields 4 of the 12 bytes. -/
def fd_pipe_short : Stream :=
  { fd := 5, fd_size := -1, getfl := 0, setfl := 0, n_read := 4, data := [10, 11] }

/-- A call of `wlr_output_set_gamma` that passes tables (not the reset). -/
def is_apply_call : Event → Bool
  | Event.output_set_gamma _ _ _ tables => tables.isSome
  | _ => false

/-- Example run with gamma size 2: an endpoint is bound (handle 0) and a
client gets the control of output 7 (session 1). -/
def run_two : State × List Event :=
  run env2 (wlr_gamma_control_manager_v1_create true true)
    [Op.bind true, Op.get_gamma_control 0 7 true true]

/-- The calls the first loop of wlr_gamma_control_manager_v1_destroy is to
make for a list of tracked control objects: for each, in list order, the
passthrough reset of its output, then the release of its session. -/
def teardown_events : List wlr_gamma_control_v1 → List Event
  | [] => []
  | c :: rest =>
    Event.output_set_gamma c.resource c.output 0 none
      :: Event.resource_destroy c.resource :: teardown_events rest

/-- Example run: an endpoint is bound (handle 0), client A gets the control of
output 7 (session 1) and client B the control of output 8 (session 2). -/
def run_pair : State × List Event :=
  run env256 (wlr_gamma_control_manager_v1_create true true)
    [Op.bind true, Op.get_gamma_control 0 7 true true, Op.get_gamma_control 0 8 true true]

/-- Example run: an endpoint is bound (handle 0), then three requests for the
control of output 7 follow (sessions 1, 2 and 3). -/
def run_three : State × List Event :=
  run env256 (wlr_gamma_control_manager_v1_create true true)
    [Op.bind true, Op.get_gamma_control 0 7 true true,
     Op.get_gamma_control 0 7 true true, Op.get_gamma_control 0 7 true true]

/-- The passthrough reset `gamma_control_destroy` issues for a control
object. -/
def reset_event (gc : wlr_gamma_control_v1) : Event :=
  Event.output_set_gamma gc.resource gc.output 0 none

/-- The call `wlr_output_set_gamma(gamma_control->output, ramp_size, r, g, b)`
of gamma_control_handle_set_gamma. -/
def apply_event (env : Env) (gc : wlr_gamma_control_v1) (fd : Stream) : Event :=
  Event.output_set_gamma gc.resource gc.output (wlr_output_get_gamma_size env gc.output)
    (some (set_gamma_tables env gc fd))

/-- The test `fd_size != -1 && (size_t)fd_size != table_size` of
gamma_control_handle_set_gamma. -/
def length_mismatch (env : Env) (gc : wlr_gamma_control_v1) (fd : Stream) : Prop :=
  fd.fd_size ≠ -1 ∧ to_size_t fd.fd_size ≠ table_size (wlr_output_get_gamma_size env gc.output)

instance (env : Env) (gc : wlr_gamma_control_v1) (fd : Stream) :
    Decidable (length_mismatch env gc fd) := by
  unfold length_mismatch; infer_instance

/-- The test `n_read == -1 || (size_t)n_read != table_size` of
gamma_control_handle_set_gamma. -/
def read_failed (env : Env) (gc : wlr_gamma_control_v1) (fd : Stream) : Prop :=
  fd.n_read = -1 ∨ to_size_t fd.n_read ≠ table_size (wlr_output_get_gamma_size env gc.output)

instance (env : Env) (gc : wlr_gamma_control_v1) (fd : Stream) :
    Decidable (read_failed env gc fd) := by
  unfold read_failed; infer_instance

/-- The soft failures inside `set_gamma`, past the length check: reading or
setting the stream's flags fails, or, with the table allocated, the read is
short or fails or the output rejects the ramp. -/
def soft_failure (env : Env) (gc : wlr_gamma_control_v1) (fd : Stream)
    (malloc_ok output_ok : Bool) : Prop :=
  ¬ length_mismatch env gc fd ∧
  (fd.getfl = -1 ∨ fd.setfl = -1 ∨
    (malloc_ok = true ∧ (read_failed env gc fd ∨ output_ok = false)))

instance (env : Env) (gc : wlr_gamma_control_v1) (fd : Stream) (malloc_ok output_ok : Bool) :
    Decidable (soft_failure env gc fd malloc_ok output_ok) := by
  unfold soft_failure; infer_instance

/-- A `failed` event, on any session. -/
def is_failed : Event → Bool
  | Event.send_failed _ => true
  | _ => false

/-- A protocol error or an out-of-memory error, on any session or client. -/
def is_error : Event → Bool
  | Event.post_error_invalid_gamma _ => true
  | Event.post_no_memory _ => true
  | Event.client_post_no_memory => true
  | _ => false

/-- An allocation or a release of the ramp table. -/
def is_table_event : Event → Bool
  | Event.malloc_table _ => true
  | Event.free_table => true
  | _ => false

/-- A `close` of a stream handle. -/
def is_close : Event → Bool
  | Event.close _ => true
  | _ => false

/-- Example stream: a full 12-byte stream whose flags cannot be read. -/
def fd_no_flags : Stream :=
  { fd := 5, fd_size := 12, getfl := -1, setfl := 0, n_read := 12,
    data := [10, 11, 20, 21, 30, 31] }

/-- Example run: an endpoint is bound (handle 0) and two requests for the
control of output 7 follow (sessions 1 and 2). -/
def run_superseded : State × List Event :=
  run env256 (wlr_gamma_control_manager_v1_create true true)
    [Op.bind true, Op.get_gamma_control 0 7 true true, Op.get_gamma_control 0 7 true true]

/-- Example backend: every output supports gamma and reports 1431655766
entries, the least 32-bit size whose triple does not fit 32 bits. -/
def env_big : Env :=
  { impl_set_gamma := fun _ => true, get_gamma_size := fun _ => 1431655766 }

/-- Example run with gamma size 1431655766: an endpoint is bound (handle 0)
and a client gets the control of output 7 (session 1). -/
def run_big : State × List Event :=
  run env_big (wlr_gamma_control_manager_v1_create true true)
    [Op.bind true, Op.get_gamma_control 0 7 true true]

/-- Example stream: 4 bytes, two samples, everything succeeds. -/
def fd_four : Stream :=
  { fd := 5, fd_size := 4, getfl := 0, setfl := 0, n_read := 4, data := [1, 2] }

/-- The outcome of a `set_gamma` call on the control object `gc` as the
state machine describes it: either `wlr_output_set_gamma` was called with the
stream's ramp and accepted and the object is still live, or the object is no
longer live. -/
def applied_or_destroyed (env : Env) (st : State) (gc : wlr_gamma_control_v1) (fd : Stream)
    (malloc_ok output_ok : Bool) : Prop :=
  ((gamma_control_handle_set_gamma env st gc.resource fd malloc_ok output_ok).2.filter
      is_apply_call = [apply_event env gc fd] ∧ output_ok = true ∧
    live (gamma_control_handle_set_gamma env st gc.resource fd malloc_ok output_ok).1 gc) ∨
  ¬ live (gamma_control_handle_set_gamma env st gc.resource fd malloc_ok output_ok).1 gc

instance (env : Env) (st : State) (gc : wlr_gamma_control_v1) (fd : Stream)
    (malloc_ok output_ok : Bool) :
    Decidable (applied_or_destroyed env st gc fd malloc_ok output_ok) := by
  unfold applied_or_destroyed; infer_instance

/-- Example backend without gamma support. -/
def env_none : Env := { impl_set_gamma := fun _ => false, get_gamma_size := fun _ => 0 }

/-! ## Session table lemmas -/

theorem lookup_set_user_data (l : List (Nat × Option wlr_gamma_control_v1)) (x r : Nat)
    (d : Option wlr_gamma_control_v1) :
    (wl_resource_set_user_data l x d).lookup r =
      if r = x then (l.lookup r).map (fun _ => d) else l.lookup r := by
  induction l with
  | nil => simp [wl_resource_set_user_data]
  | cons p l ih =>
    obtain ⟨k, v⟩ := p
    simp only [wl_resource_set_user_data, List.map_cons] at ih ⊢
    by_cases hk : k = x
    · subst hk
      by_cases hr : r = k
      · subst hr; simp [List.lookup_cons]
      · have : (r == k) = false := by simpa using hr
        simp [List.lookup_cons, this, hr, ih]
    · by_cases hr : r = k
      · subst hr
        have hx : ¬ r = x := hk
        simp [List.lookup_cons, hk]
      · have : (r == k) = false := by simpa using hr
        simp only [hk, if_false, List.lookup_cons, this]
        exact ih

theorem lookup_filter_ne (l : List (Nat × Option wlr_gamma_control_v1)) (x r : Nat) :
    (l.filter fun p => decide (p.1 ≠ x)).lookup r =
      if r = x then none else l.lookup r := by
  induction l with
  | nil => simp
  | cons p l ih =>
    obtain ⟨k, v⟩ := p
    by_cases hk : k = x
    · subst hk
      by_cases hr : r = k
      · subst hr; simpa [List.filter_cons] using ih
      · have : (r == k) = false := by simpa using hr
        simpa [List.filter_cons, List.lookup_cons, this, hr] using ih
    · by_cases hr : r = k
      · subst hr
        simp [List.filter_cons, hk, List.lookup_cons]
      · have : (r == k) = false := by simpa using hr
        simpa [List.filter_cons, hk, List.lookup_cons, this] using ih

/-! ## Effect of the primitive operations on the state -/

theorem from_resource_destroy (st : State) (gc : wlr_gamma_control_v1) (r : Nat) :
    gamma_control_from_resource (gamma_control_destroy st (some gc)).1 r =
      if r = gc.resource then none else gamma_control_from_resource st r := by
  simp only [gamma_control_from_resource, gamma_control_destroy, lookup_set_user_data]
  by_cases h : r = gc.resource
  · simp only [h, if_true]
    cases List.lookup gc.resource st.sessions <;> rfl
  · simp [h]

theorem session_exists_destroy (st : State) (gc : wlr_gamma_control_v1) (r : Nat) :
    session_exists (gamma_control_destroy st (some gc)).1 r = session_exists st r := by
  simp only [session_exists, gamma_control_destroy, lookup_set_user_data]
  by_cases h : r = gc.resource
  · simp only [h, if_true]
    cases List.lookup gc.resource st.sessions <;> rfl
  · simp [h]

theorem tracked_destroy (st : State) (gc : wlr_gamma_control_v1) :
    tracked (gamma_control_destroy st (some gc)).1 =
      (tracked st).filter fun c => decide (c ≠ gc) := by
  simp only [tracked, gamma_control_destroy, remove_control]
  cases st.manager <;> simp

theorem bound_destroy (st : State) (gc : wlr_gamma_control_v1) :
    bound (gamma_control_destroy st (some gc)).1 = bound st := by
  simp only [bound, gamma_control_destroy, remove_control]
  cases st.manager <;> simp

theorem listeners_destroy (st : State) (gc : wlr_gamma_control_v1) :
    (gamma_control_destroy st (some gc)).1.listeners =
      st.listeners.filter fun c => decide (c ≠ gc) := rfl

theorem next_id_destroy (st : State) (g : Option wlr_gamma_control_v1) :
    (gamma_control_destroy st g).1.next_id = st.next_id := by
  cases g <;> rfl

theorem events_destroy (st : State) (gc : wlr_gamma_control_v1) :
    (gamma_control_destroy st (some gc)).2 =
      [Event.output_set_gamma gc.resource gc.output 0 none] := rfl

theorem live_exists {st : State} {gc : wlr_gamma_control_v1} (h : live st gc) :
    session_exists st gc.resource = true := by
  unfold live gamma_control_from_resource at h
  unfold session_exists
  cases hl : List.lookup gc.resource st.sessions with
  | none => rw [hl] at h; cases h
  | some d => rfl

theorem live_of_from_resource {st : State} (wf : WF st) {r : Nat} {c : wlr_gamma_control_v1}
    (h : gamma_control_from_resource st r = some c) : live st c := by
  have := wf.ud_res r c h
  subst this
  exact h

theorem live_inj {st : State} {a b : wlr_gamma_control_v1} (ha : live st a) (hb : live st b)
    (h : a.resource = b.resource) : a = b := by
  unfold live at ha hb
  rw [h] at ha
  rw [ha] at hb
  exact Option.some.inj hb

theorem live_destroy_iff {st : State} {gc : wlr_gamma_control_v1} (hg : live st gc)
    (c : wlr_gamma_control_v1) :
    live (gamma_control_destroy st (some gc)).1 c ↔ live st c ∧ c ≠ gc := by
  unfold live
  rw [from_resource_destroy]
  constructor
  · intro h
    by_cases hr : c.resource = gc.resource
    · simp [hr] at h
    · simp only [hr, if_false] at h
      exact ⟨h, fun e => hr (by rw [e])⟩
  · rintro ⟨h, hne⟩
    have hr : c.resource ≠ gc.resource := fun e => hne (live_inj h hg e)
    simp only [hr, if_false]
    exact h

/-- Destroying a live control object keeps the invariant. -/
theorem WF_destroy {st : State} (wf : WF st) {gc : wlr_gamma_control_v1} (hg : live st gc) :
    WF (gamma_control_destroy st (some gc)).1 where
  key_lt := by
    intro r hr
    rw [session_exists_destroy] at hr
    rw [next_id_destroy]
    exact wf.key_lt r hr
  ud_res := by
    intro r c h
    rw [from_resource_destroy] at h
    by_cases hr : r = gc.resource
    · simp [hr] at h
    · simp only [hr, if_false] at h
      exact wf.ud_res r c h
  tracked_live := by
    intro c hc
    rw [tracked_destroy, List.mem_filter] at hc
    rw [live_destroy_iff hg]
    exact ⟨wf.tracked_live c hc.1, by simpa using hc.2⟩
  listen_iff := by
    intro c
    rw [listeners_destroy, List.mem_filter, live_destroy_iff hg, wf.listen_iff]
    simp
  listen_nodup := by
    rw [listeners_destroy]
    exact wf.listen_nodup.filter _
  tracked_outputs := by
    rw [tracked_destroy]
    exact wf.tracked_outputs.filter _

/-! ## What a delivery does to one session -/

theorem touches_of_is_reset {r : Nat} {e : Event} (h : is_reset_of r e = true) :
    touches r e = true := by
  cases e <;> simp_all [is_reset_of, touches]

theorem filter_reset_nil_of_touches {r : Nat} {ev : List Event}
    (h : ev.filter (touches r) = []) : ev.filter (is_reset_of r) = [] := by
  rw [List.filter_eq_nil_iff] at h ⊢
  intro e he hr
  exact h e he (touches_of_is_reset hr)

theorem from_resource_lt {st : State} (wf : WF st) {r : Nat} {c : wlr_gamma_control_v1}
    (h : gamma_control_from_resource st r = some c) : r < st.next_id := by
  have hl := live_of_from_resource wf h
  have := wf.key_lt _ (live_exists hl)
  rwa [wf.ud_res r c h] at this

theorem LocalStep_refl (r : Nat) (st : State) : LocalStep r st st [] where
  mono := le_rfl
  inert := fun h _ => ⟨h, rfl⟩
  active := fun _ h => Or.inl ⟨h, rfl⟩
  fresh := fun _ _ => rfl

theorem LocalStep_trans {r : Nat} {a b c : State} {e1 e2 : List Event} (wf : WF a)
    (h1 : LocalStep r a b e1) (h2 : LocalStep r b c e2) : LocalStep r a c (e1 ++ e2) where
  mono := le_trans h1.mono h2.mono
  inert := by
    intro hn hlt
    obtain ⟨hb, hf1⟩ := h1.inert hn hlt
    obtain ⟨hc, hf2⟩ := h2.inert hb (lt_of_lt_of_le hlt h1.mono)
    exact ⟨hc, by rw [List.filter_append, hf1, hf2]; rfl⟩
  active := by
    intro x hx
    have hlt : r < a.next_id := from_resource_lt wf hx
    rcases h1.active x hx with ⟨hb, hf1⟩ | ⟨hb, hf1⟩
    · rcases h2.active x hb with ⟨hc, hf2⟩ | ⟨hc, hf2⟩
      · exact Or.inl ⟨hc, by rw [List.filter_append, hf1, hf2]; rfl⟩
      · exact Or.inr ⟨hc, by rw [List.filter_append, hf1, hf2]; rfl⟩
    · obtain ⟨hc, hf2⟩ := h2.inert hb (lt_of_lt_of_le hlt h1.mono)
      exact Or.inr ⟨hc, by
        rw [List.filter_append, hf1, filter_reset_nil_of_touches hf2]; rfl⟩
  fresh := by
    intro hle hfin
    rw [List.filter_append]
    by_cases hb : b.next_id ≤ r
    · rw [h1.fresh hle (Or.inr hb), h2.fresh hb hfin]; rfl
    · have hltb : r < b.next_id := lt_of_not_le hb
      have hltc : r < c.next_id := lt_of_lt_of_le hltb h2.mono
      cases hbr : gamma_control_from_resource b r with
      | none =>
        obtain ⟨hc, _⟩ := h2.inert hbr hltb
        rcases hfin with hs | hs
        · rw [hc] at hs; cases hs
        · exact absurd hs (not_le_of_lt hltc)
      | some x =>
        rw [h1.fresh hle (Or.inl (by rw [hbr]; rfl))]
        rcases h2.active x hbr with ⟨_, hf2⟩ | ⟨hc, _⟩
        · rw [hf2]; rfl
        · rcases hfin with hs | hs
          · rw [hc] at hs; cases hs
          · exact absurd hs (not_le_of_lt hltc)

/-- Events around a delivery that neither reset `r` nor, when `r` has no
control object, concern it, do not change what the delivery does to `r`. -/
theorem LocalStep_wrap {r : Nat} {st st1 : State} {ev : List Event}
    (h : LocalStep r st st1 ev) (pre post : List Event)
    (hreset : ∀ e, e ∈ pre ∨ e ∈ post → is_reset_of r e = false)
    (htouch : gamma_control_from_resource st r = none → r < st.next_id →
      ∀ e, e ∈ pre ∨ e ∈ post → touches r e = false) :
    LocalStep r st st1 (pre ++ ev ++ post) := by
  have hr1 : pre.filter (is_reset_of r) = [] := by
    rw [List.filter_eq_nil_iff]; intro e he; simp [hreset e (Or.inl he)]
  have hr2 : post.filter (is_reset_of r) = [] := by
    rw [List.filter_eq_nil_iff]; intro e he; simp [hreset e (Or.inr he)]
  refine ⟨h.mono, ?_, ?_, ?_⟩
  · intro hn hlt
    obtain ⟨h1, h2⟩ := h.inert hn hlt
    refine ⟨h1, ?_⟩
    have ht1 : pre.filter (touches r) = [] := by
      rw [List.filter_eq_nil_iff]; intro e he; simp [htouch hn hlt e (Or.inl he)]
    have ht2 : post.filter (touches r) = [] := by
      rw [List.filter_eq_nil_iff]; intro e he; simp [htouch hn hlt e (Or.inr he)]
    simp [List.filter_append, ht1, ht2, h2]
  · intro c hc
    rcases h.active c hc with ⟨h1, h2⟩ | ⟨h1, h2⟩
    · exact Or.inl ⟨h1, by simp [List.filter_append, hr1, hr2, h2]⟩
    · exact Or.inr ⟨h1, by simp [List.filter_append, hr1, hr2, h2]⟩
  · intro hle hfin
    simp [List.filter_append, hr1, hr2, h.fresh hle hfin]

theorem LocalStep_destroy {st : State} (wf : WF st) {gc : wlr_gamma_control_v1}
    (hg : live st gc) (r : Nat) :
    LocalStep r st (gamma_control_destroy st (some gc)).1
      (gamma_control_destroy st (some gc)).2 where
  mono := by rw [next_id_destroy]
  inert := by
    intro hn _
    have hr : r ≠ gc.resource := by
      intro e; unfold live at hg; rw [← e, hn] at hg; cases hg
    rw [from_resource_destroy, events_destroy]
    simp only [hr, if_false]
    exact ⟨hn, by simp [touches, Ne.symm hr]⟩
  active := by
    intro c hc
    rw [from_resource_destroy, events_destroy]
    by_cases hr : r = gc.resource
    · right
      have hcg : c = gc := by
        unfold live at hg; rw [← hr, hc] at hg; exact Option.some.inj hg
      subst hcg
      simp [hr, is_reset_of]
    · left
      simp only [hr, if_false]
      exact ⟨hc, by simp [is_reset_of, Ne.symm hr]⟩
  fresh := by
    intro hle _
    have hlt := wf.key_lt _ (live_exists hg)
    have hr : gc.resource ≠ r := by omega
    rw [events_destroy]
    simp [is_reset_of, hr]

theorem Sound_refl {st : State} (wf : WF st) : Sound st (st, []) :=
  ⟨wf, fun r => LocalStep_refl r st⟩

theorem Sound_trans {a : State} (wf : WF a) {p : State × List Event}
    {q : State × List Event} (h1 : Sound a p) (h2 : Sound p.1 q) :
    Sound a (q.1, p.2 ++ q.2) :=
  ⟨h2.1, fun r => LocalStep_trans wf (h1.2 r) (h2.2 r)⟩

theorem Sound_destroy {st : State} (wf : WF st) {gc : wlr_gamma_control_v1}
    (hg : live st gc) : Sound st (gamma_control_destroy st (some gc)) :=
  ⟨WF_destroy wf hg, fun r => LocalStep_destroy wf hg r⟩

theorem Sound_send_failed {st : State} (wf : WF st) {gc : wlr_gamma_control_v1}
    (hg : live st gc) : Sound st (gamma_control_send_failed st gc) := by
  refine ⟨WF_destroy wf hg, fun r => ?_⟩
  have h := LocalStep_wrap (LocalStep_destroy wf hg r) [Event.send_failed gc.resource] []
    (by intro e he; simp at he; subst he; rfl)
    (by
      intro hn _ e he
      simp at he; subst he
      have hr : gc.resource ≠ r := by
        intro e; unfold live at hg; rw [e, hn] at hg; cases hg
      simp [touches, on_session, hr])
  simpa [gamma_control_send_failed] using h

theorem from_resource_release (st : State) (x r : Nat) :
    gamma_control_from_resource (release_session st x) r =
      if r = x then none else gamma_control_from_resource st r := by
  simp only [gamma_control_from_resource, release_session, lookup_filter_ne]
  by_cases h : r = x <;> simp [h]

theorem session_exists_release (st : State) (x r : Nat) :
    session_exists (release_session st x) r =
      if r = x then false else session_exists st r := by
  simp only [session_exists, release_session, lookup_filter_ne]
  by_cases h : r = x <;> simp [h]

theorem live_release_iff {st : State} {x : Nat}
    (hx : gamma_control_from_resource st x = none) (c : wlr_gamma_control_v1) :
    live (release_session st x) c ↔ live st c := by
  unfold live
  rw [from_resource_release]
  by_cases h : c.resource = x
  · simp [h, hx]
  · simp [h]

theorem Sound_release {st : State} (wf : WF st) {x : Nat}
    (hx : gamma_control_from_resource st x = none) :
    Sound st (release_session st x, [Event.resource_destroy x]) := by
  refine ⟨⟨?_, ?_, ?_, ?_, wf.listen_nodup, wf.tracked_outputs⟩, fun r => ⟨le_rfl, ?_, ?_, ?_⟩⟩
  · intro r hr
    rw [session_exists_release] at hr
    by_cases h : r = x
    · simp [h] at hr
    · simp only [h, if_false] at hr
      exact wf.key_lt r hr
  · intro r c h
    rw [from_resource_release] at h
    by_cases hr : r = x
    · simp [hr] at h
    · simp only [hr, if_false] at h
      exact wf.ud_res r c h
  · intro c hc
    rw [live_release_iff hx]
    exact wf.tracked_live c hc
  · intro c
    rw [live_release_iff hx]
    exact wf.listen_iff c
  · intro hn _
    rw [from_resource_release]
    refine ⟨by by_cases h : r = x <;> simp [h, hn], by simp [touches, on_session]⟩
  · intro c hc
    left
    rw [from_resource_release]
    have h : r ≠ x := by intro e; rw [e, hx] at hc; cases hc
    simp only [h, if_false]
    exact ⟨hc, by simp [is_reset_of]⟩
  · intro _ _
    simp [is_reset_of]

theorem Sound_handle_resource_destroy {st : State} (wf : WF st) (x : Nat) :
    Sound st (gamma_control_handle_resource_destroy st x) ∧
      gamma_control_from_resource (gamma_control_handle_resource_destroy st x).1 x = none := by
  unfold gamma_control_handle_resource_destroy
  cases h : gamma_control_from_resource st x with
  | none => exact ⟨Sound_refl wf, h⟩
  | some gc =>
    have hg := live_of_from_resource wf h
    refine ⟨Sound_destroy wf hg, ?_⟩
    rw [from_resource_destroy, wf.ud_res x gc h]
    simp

theorem Sound_wl_resource_destroy {st : State} (wf : WF st) (x : Nat) :
    Sound st (wl_resource_destroy st x) := by
  obtain ⟨h1, h2⟩ := Sound_handle_resource_destroy wf x
  exact Sound_trans wf h1 (Sound_release h1.1 h2)

theorem Sound_handle_destroy {st : State} (wf : WF st) (x : Nat) :
    Sound st (gamma_control_handle_destroy st x) :=
  Sound_wl_resource_destroy wf x

/-- Several control objects are destroyed one after the other: each one that
is live at the start is still live when its turn comes. -/
theorem Sound_notify {l : List wlr_gamma_control_v1} :
    ∀ {st : State}, WF st → (∀ c ∈ l, live st c) → l.Nodup →
      Sound st (notify_output_listeners st l) := by
  induction l with
  | nil => intro st wf _ _; exact Sound_refl wf
  | cons gc rest ih =>
    intro st wf hl hnd
    have hg : live st gc := hl gc (List.mem_cons_self _ _)
    have h1 := Sound_destroy wf hg
    have hrest : ∀ c ∈ rest, live (gamma_control_destroy st (some gc)).1 c := by
      intro c hc
      rw [live_destroy_iff hg]
      refine ⟨hl c (List.mem_cons_of_mem _ hc), ?_⟩
      rintro rfl
      exact (List.nodup_cons.mp hnd).1 hc
    exact Sound_trans wf h1 (ih h1.1 hrest (List.nodup_cons.mp hnd).2)

theorem Sound_output_destroy {st : State} (wf : WF st) (output : Nat) :
    Sound st (output_destroy st output) := by
  unfold output_destroy
  refine Sound_notify wf ?_ (wf.listen_nodup.filter _)
  intro c hc
  exact (wf.listen_iff c).mp (List.mem_filter.mp hc).1

theorem live_wl_resource_destroy_iff {st : State} (wf : WF st) {gc : wlr_gamma_control_v1}
    (hg : live st gc) (c : wlr_gamma_control_v1) :
    live (wl_resource_destroy st gc.resource).1 c ↔ live st c ∧ c ≠ gc := by
  have hx : gamma_control_from_resource
      (gamma_control_handle_resource_destroy st gc.resource).1 gc.resource = none :=
    (Sound_handle_resource_destroy wf gc.resource).2
  unfold wl_resource_destroy
  simp only []
  rw [live_release_iff hx]
  unfold gamma_control_handle_resource_destroy
  unfold live at hg
  rw [hg]
  exact live_destroy_iff hg c

theorem Sound_destroy_controls {l : List wlr_gamma_control_v1} :
    ∀ {st : State}, WF st → (∀ c ∈ l, live st c) → l.Nodup →
      Sound st (destroy_controls st l) := by
  induction l with
  | nil => intro st wf _ _; exact Sound_refl wf
  | cons gc rest ih =>
    intro st wf hl hnd
    have hg : live st gc := hl gc (List.mem_cons_self _ _)
    have h1 := Sound_wl_resource_destroy wf gc.resource
    have hrest : ∀ c ∈ rest, live (wl_resource_destroy st gc.resource).1 c := by
      intro c hc
      rw [live_wl_resource_destroy_iff wf hg]
      refine ⟨hl c (List.mem_cons_of_mem _ hc), ?_⟩
      rintro rfl
      exact (List.nodup_cons.mp hnd).1 hc
    exact Sound_trans wf h1 (ih h1.1 hrest (List.nodup_cons.mp hnd).2)

/-- A change that leaves sessions, listeners and tracked controls alone, with
events that concern no session, treats every session as `LocalStep` says. -/
theorem Sound_frame {st : State} (wf : WF st) (st1 : State) (ev : List Event)
    (hs : st1.sessions = st.sessions)
    (hl : st1.listeners = st.listeners) (ht : (tracked st1).Sublist (tracked st))
    (hn : st.next_id ≤ st1.next_id)
    (hev : ∀ e ∈ ev, ∀ r, touches r e = false) : Sound st (st1, ev) := by
  have hfr : ∀ r, gamma_control_from_resource st1 r = gamma_control_from_resource st r := by
    intro r; simp only [gamma_control_from_resource, hs]
  have hse : ∀ r, session_exists st1 r = session_exists st r := by
    intro r; simp only [session_exists, hs]
  have hlive : ∀ c, live st1 c ↔ live st c := by
    intro c; unfold live; rw [hfr]
  have hft : ∀ r, ev.filter (touches r) = [] := by
    intro r; rw [List.filter_eq_nil_iff]; intro e he; simp [hev e he r]
  refine ⟨⟨?_, ?_, ?_, ?_, ?_, ?_⟩, fun r => ⟨hn, ?_, ?_, ?_⟩⟩
  · intro r hr; rw [hse] at hr; exact lt_of_lt_of_le (wf.key_lt r hr) hn
  · intro r c h; rw [hfr] at h; exact wf.ud_res r c h
  · intro c hc; rw [hlive]; exact wf.tracked_live c (ht.subset hc)
  · intro c; rw [hl, hlive]; exact wf.listen_iff c
  · rw [hl]; exact wf.listen_nodup
  · exact wf.tracked_outputs.sublist ht
  · intro h _; rw [hfr]; exact ⟨h, hft r⟩
  · intro c h; left; rw [hfr]; exact ⟨h, filter_reset_nil_of_touches (hft r)⟩
  · intro _ _; exact filter_reset_nil_of_touches (hft r)

theorem Sound_bind {st : State} (wf : WF st) (m : wlr_gamma_control_manager_v1)
    (hm : st.manager = some m) (resource_ok : Bool) :
    Sound st (gamma_control_manager_bind st m resource_ok) := by
  unfold gamma_control_manager_bind
  split
  · exact Sound_frame wf st _ rfl rfl (List.Sublist.refl _) le_rfl
      (by intro e he r; simp only [List.mem_singleton] at he; subst he; rfl)
  · refine Sound_frame wf _ _ rfl rfl ?_ (Nat.le_succ _)
      (by intro e he r; simp only [List.mem_singleton] at he; subst he; rfl)
    simp [tracked, hm]

theorem Sound_endpoint_destroy {st : State} (wf : WF st) (x : Nat) :
    Sound st (wl_resource_destroy_endpoint st x) := by
  unfold wl_resource_destroy_endpoint
  refine Sound_frame wf _ _ rfl rfl ?_ le_rfl
    (by intro e he r; simp only [List.mem_singleton] at he; subst he; rfl)
  simp only [tracked, gamma_control_manager_handle_resource_destroy]
  cases st.manager <;> exact List.Sublist.refl _

theorem Sound_destroy_resources {l : List Nat} :
    ∀ {st : State}, WF st → Sound st (destroy_resources st l) := by
  induction l with
  | nil => intro st wf; exact Sound_refl wf
  | cons x rest ih =>
    intro st wf
    have h1 := Sound_endpoint_destroy wf x
    exact Sound_trans wf h1 (ih h1.1)

theorem from_resource_new (st : State) (gc : wlr_gamma_control_v1) (r : Nat) :
    gamma_control_from_resource (new_gamma_control st gc) r =
      if r = gc.resource then some gc else gamma_control_from_resource st r := by
  simp only [gamma_control_from_resource, new_gamma_control, List.lookup_cons]
  by_cases h : r = gc.resource
  · simp [h]
  · have : (r == gc.resource) = false := by simpa using h
    simp [h, this]

theorem session_exists_new (st : State) (gc : wlr_gamma_control_v1) (r : Nat) :
    session_exists (new_gamma_control st gc) r =
      if r = gc.resource then true else session_exists st r := by
  simp only [session_exists, new_gamma_control, List.lookup_cons]
  by_cases h : r = gc.resource
  · simp [h]
  · have : (r == gc.resource) = false := by simpa using h
    simp [h, this]

theorem not_exists_next_id {st : State} (wf : WF st) {r : Nat} (h : st.next_id ≤ r) :
    gamma_control_from_resource st r = none := by
  cases hr : gamma_control_from_resource st r with
  | none => rfl
  | some c => exact absurd (from_resource_lt wf hr) (not_lt_of_le h)

theorem live_new_iff {st : State} (wf : WF st) {gc : wlr_gamma_control_v1}
    (hr : gc.resource = st.next_id) (c : wlr_gamma_control_v1) :
    live (new_gamma_control st gc) c ↔ live st c ∨ c = gc := by
  unfold live
  rw [from_resource_new]
  constructor
  · intro h
    by_cases hc : c.resource = gc.resource
    · simp only [hc, if_true] at h
      exact Or.inr (Option.some.inj h).symm
    · simp only [hc, if_false] at h
      exact Or.inl h
  · rintro (h | rfl)
    · have : c.resource ≠ gc.resource := by
        have := from_resource_lt wf h
        omega
      simp only [this, if_false]
      exact h
    · simp

theorem Sound_new {st : State} (wf : WF st) {gc : wlr_gamma_control_v1}
    (hr : gc.resource = st.next_id) :
    Sound st (new_gamma_control st gc, [Event.resource_create gc.resource]) := by
  have hnl : ¬ live st gc := by
    intro h
    have := wf.key_lt _ (live_exists h)
    omega
  refine ⟨⟨?_, ?_, ?_, ?_, ?_, wf.tracked_outputs⟩, fun r => ⟨Nat.le_succ _, ?_, ?_, ?_⟩⟩
  · intro r h
    rw [session_exists_new] at h
    show r < st.next_id + 1
    by_cases hx : r = gc.resource
    · omega
    · simp only [hx, if_false] at h
      exact Nat.lt_succ_of_lt (wf.key_lt r h)
  · intro r c h
    rw [from_resource_new] at h
    by_cases hx : r = gc.resource
    · simp only [hx, if_true] at h
      rw [← Option.some.inj h, hx]
    · simp only [hx, if_false] at h
      exact wf.ud_res r c h
  · intro c hc
    rw [live_new_iff wf hr]
    exact Or.inl (wf.tracked_live c hc)
  · intro c
    rw [live_new_iff wf hr]
    show c ∈ st.listeners ++ [gc] ↔ _
    rw [List.mem_append, wf.listen_iff]
    simp
  · show (st.listeners ++ [gc]).Nodup
    rw [List.nodup_append]
    refine ⟨wf.listen_nodup, List.nodup_singleton _, ?_⟩
    intro a ha hb
    simp only [List.mem_singleton] at hb
    subst hb
    exact hnl ((wf.listen_iff a).mp ha)
  · intro h hlt
    rw [from_resource_new]
    have : r ≠ gc.resource := by omega
    simp only [this, if_false]
    exact ⟨h, by simp [touches, on_session]⟩
  · intro c h
    left
    rw [from_resource_new]
    have : r ≠ gc.resource := by
      have := from_resource_lt wf h
      omega
    simp only [this, if_false]
    exact ⟨h, by simp [is_reset_of]⟩
  · intro _ _
    simp [is_reset_of]

theorem Sound_insert {st : State} (wf : WF st) {m : wlr_gamma_control_manager_v1}
    (hm : st.manager = some m) {gc : wlr_gamma_control_v1} (hg : live st gc)
    (hout : ∀ c ∈ m.controls, gc.output ≠ c.output) (size : Nat) :
    Sound st (insert_control st m gc, [Event.send_gamma_size gc.resource size]) := by
  have htr : tracked st = m.controls := by simp [tracked, hm]
  refine ⟨⟨wf.key_lt, wf.ud_res, ?_, wf.listen_iff, wf.listen_nodup, ?_⟩,
    fun r => ⟨le_rfl, ?_, ?_, ?_⟩⟩
  · intro c hc
    simp only [tracked, insert_control, List.mem_cons] at hc
    rcases hc with rfl | hc
    · exact hg
    · exact wf.tracked_live c (by rw [htr]; exact hc)
  · simp only [tracked, insert_control, List.pairwise_cons]
    exact ⟨hout, by rw [← htr]; exact wf.tracked_outputs⟩
  · intro h _
    refine ⟨h, ?_⟩
    have : gc.resource ≠ r := by
      intro e; unfold live at hg; rw [e, h] at hg; cases hg
    simp [touches, on_session, this]
  · intro c h
    exact Or.inl ⟨h, by simp [is_reset_of]⟩
  · intro _ _
    simp [is_reset_of]

theorem Sound_no_memory {st : State} (wf : WF st) :
    Sound st (st, [Event.client_post_no_memory]) :=
  Sound_frame wf st _ rfl rfl (List.Sublist.refl _) le_rfl
    (by intro e he r; simp only [List.mem_singleton] at he; subst he; rfl)

theorem Sound_get_gamma_control {st : State} (wf : WF st)
    {m : wlr_gamma_control_manager_v1} (hm : st.manager = some m) (env : Env)
    (output : Nat) (calloc_ok resource_ok : Bool) :
    Sound st (gamma_control_manager_get_gamma_control env st m output calloc_ok
      resource_ok) := by
  unfold gamma_control_manager_get_gamma_control
  split
  · exact Sound_no_memory wf
  split
  · exact Sound_no_memory wf
  have h1 := Sound_new wf (rfl : (⟨st.next_id, output⟩ : wlr_gamma_control_v1).resource
    = st.next_id)
  have hnew : live (new_gamma_control st ⟨st.next_id, output⟩) ⟨st.next_id, output⟩ :=
    (live_new_iff wf rfl _).mpr (Or.inr rfl)
  simp only []
  split
  · exact Sound_trans wf h1 (Sound_send_failed h1.1 hnew)
  · split
    · rename_i gc hfind
      have hmem : gc ∈ m.controls := List.mem_of_find?_eq_some hfind
      have hlive : live (new_gamma_control st ⟨st.next_id, output⟩) gc :=
        h1.1.tracked_live gc (by simp [tracked, new_gamma_control, hm, hmem])
      exact Sound_trans wf h1 (Sound_send_failed h1.1 hlive)
    · rename_i hfind
      have hout : ∀ c ∈ m.controls,
          (⟨st.next_id, output⟩ : wlr_gamma_control_v1).output ≠ c.output := by
        intro c hc e
        have := List.find?_eq_none.mp hfind c hc
        simp at this
        exact this e.symm
      exact Sound_trans wf h1 (Sound_insert h1.1
        (by simp [new_gamma_control, hm]) hnew hout _)

theorem Sound_set_gamma {st : State} (wf : WF st) (env : Env) (x : Nat) (fd : Stream)
    (malloc_ok output_ok : Bool) :
    Sound st (gamma_control_handle_set_gamma env st x fd malloc_ok output_ok) := by
  unfold gamma_control_handle_set_gamma
  cases h : gamma_control_from_resource st x with
  | none =>
    exact Sound_frame wf st _ rfl rfl (List.Sublist.refl _) le_rfl
      (by intro e he r; simp only [List.mem_singleton] at he; subst he; rfl)
  | some gc =>
    have hg := live_of_from_resource wf h
    have hx := wf.ud_res x gc h
    have hf := Sound_send_failed wf hg
    simp only []
    split
    · refine ⟨wf, fun r => ?_⟩
      have := LocalStep_wrap (LocalStep_refl r st)
        [Event.post_error_invalid_gamma x, Event.close fd.fd] []
        (by intro e he; simp at he; rcases he with rfl | rfl <;> rfl)
        (by
          intro hn _ e he
          have hr : x ≠ r := by intro e; rw [e, hn] at h; cases h
          simp at he; rcases he with rfl | rfl <;> simp [touches, on_session, hr])
      simpa using this
    split
    · refine ⟨hf.1, fun r => ?_⟩
      have := LocalStep_wrap (hf.2 r) [] [Event.close fd.fd]
        (by intro e he; simp at he; subst he; rfl)
        (by intro _ _ e he; simp at he; subst he; rfl)
      simpa using this
    split
    · refine ⟨hf.1, fun r => ?_⟩
      have := LocalStep_wrap (hf.2 r) [] [Event.close fd.fd]
        (by intro e he; simp at he; subst he; rfl)
        (by intro _ _ e he; simp at he; subst he; rfl)
      simpa using this
    split
    · refine ⟨wf, fun r => ?_⟩
      have := LocalStep_wrap (LocalStep_refl r st)
        [Event.post_no_memory x, Event.close fd.fd] []
        (by intro e he; simp at he; rcases he with rfl | rfl <;> rfl)
        (by
          intro hn _ e he
          have hr : x ≠ r := by intro e; rw [e, hn] at h; cases h
          simp at he; rcases he with rfl | rfl <;> simp [touches, on_session, hr])
      simpa using this
    split
    · refine ⟨hf.1, fun r => ?_⟩
      have := LocalStep_wrap (hf.2 r)
        [Event.malloc_table (table_size (wlr_output_get_gamma_size env gc.output))]
        [Event.free_table, Event.close fd.fd]
        (by intro e he; simp at he; rcases he with rfl | rfl | rfl <;> rfl)
        (by intro _ _ e he; simp at he; rcases he with rfl | rfl | rfl <;> rfl)
      simpa using this
    split
    · refine ⟨hf.1, fun r => ?_⟩
      have := LocalStep_wrap (hf.2 r)
        [Event.malloc_table (table_size (wlr_output_get_gamma_size env gc.output)),
          Event.output_set_gamma gc.resource gc.output
            (wlr_output_get_gamma_size env gc.output)
            (some (set_gamma_tables env gc fd))]
        [Event.free_table, Event.close fd.fd]
        (by
          intro e he; simp at he
          rcases he with (rfl | rfl) | rfl | rfl <;> simp [is_reset_of])
        (by
          intro hn _ e he
          have hr : gc.resource ≠ r := by intro e; rw [← hx, e, hn] at h; cases h
          simp at he
          rcases he with (rfl | rfl) | rfl | rfl <;> simp [touches, on_session, hr])
      simpa [set_gamma_tables] using this
    · refine ⟨wf, fun r => ?_⟩
      have := LocalStep_wrap (LocalStep_refl r st)
        [Event.malloc_table (table_size (wlr_output_get_gamma_size env gc.output)),
          Event.output_set_gamma gc.resource gc.output
            (wlr_output_get_gamma_size env gc.output)
            (some (set_gamma_tables env gc fd)),
          Event.free_table] []
        (by
          intro e he; simp at he
          rcases he with rfl | rfl | rfl <;> simp [is_reset_of])
        (by
          intro hn _ e he
          have hr : gc.resource ≠ r := by intro e; rw [← hx, e, hn] at h; cases h
          simp at he
          rcases he with rfl | rfl | rfl <;> simp [touches, on_session, hr])
      simpa [set_gamma_tables] using this

theorem tracked_nodup {st : State} (wf : WF st) : (tracked st).Nodup :=
  wf.tracked_outputs.imp (fun h e => h (by rw [e]))

theorem Sound_manager_destroy_loops {st : State} (wf : WF st)
    {m : wlr_gamma_control_manager_v1} (hm : st.manager = some m) :
    Sound st (manager_destroy_loops st m) := by
  unfold manager_destroy_loops
  have htr : tracked st = m.controls := by simp [tracked, hm]
  have h1 : Sound st (destroy_controls st m.controls) :=
    Sound_destroy_controls wf (by rw [← htr]; exact wf.tracked_live)
      (by rw [← htr]; exact tracked_nodup wf)
  exact Sound_trans wf h1 (Sound_destroy_resources h1.1)

theorem Sound_manager_destroy {st : State} (wf : WF st) :
    Sound st (wlr_gamma_control_manager_v1_destroy st) := by
  unfold wlr_gamma_control_manager_v1_destroy
  split
  · exact Sound_refl wf
  · rename_i m hm
    have h1 := Sound_manager_destroy_loops wf hm
    have h2 : Sound (manager_destroy_loops st m).1
        ({ (manager_destroy_loops st m).1 with manager := none }, [Event.global_destroy]) :=
      Sound_frame h1.1 _ _ rfl rfl (by simp [tracked]) le_rfl
        (by intro e he r; simp only [List.mem_singleton] at he; subst he; rfl)
    exact Sound_trans wf h1 h2

theorem Sound_step {st : State} (wf : WF st) (env : Env) (op : Op) :
    Sound st (step env st op) := by
  cases op with
  | bind resource_ok =>
    simp only [step]
    split
    · rename_i m hm; exact Sound_bind wf m hm resource_ok
    · exact Sound_refl wf
  | get_gamma_control manager_resource output calloc_ok resource_ok =>
    simp only [step]
    split
    · rename_i m hm
      split
      · exact Sound_get_gamma_control wf hm env output calloc_ok resource_ok
      · exact Sound_refl wf
    · exact Sound_refl wf
  | set_gamma resource fd malloc_ok output_ok =>
    simp only [step]
    split
    · exact Sound_set_gamma wf env resource fd malloc_ok output_ok
    · exact Sound_refl wf
  | destroy resource =>
    simp only [step]
    split
    · exact Sound_handle_destroy wf resource
    · exact Sound_refl wf
  | endpoint_destroy manager_resource =>
    simp only [step]
    split
    · split
      · exact Sound_endpoint_destroy wf manager_resource
      · exact Sound_refl wf
    · exact Sound_refl wf
  | output_destroy output => exact Sound_output_destroy wf output
  | manager_destroy => exact Sound_manager_destroy wf

theorem Sound_run (env : Env) (ops : List Op) :
    ∀ {st : State}, WF st → Sound st (run env st ops) := by
  induction ops with
  | nil => intro st wf; exact Sound_refl wf
  | cons op ops ih =>
    intro st wf
    have h1 := Sound_step wf env op
    exact Sound_trans wf h1 (ih h1.1)

theorem WF_create (calloc_ok global_ok : Bool) :
    WF (wlr_gamma_control_manager_v1_create calloc_ok global_ok) := by
  refine ⟨?_, ?_, ?_, ?_, List.nodup_nil, ?_⟩
  · intro r h; simp [session_exists, wlr_gamma_control_manager_v1_create] at h
  · intro r c h
    simp [gamma_control_from_resource, wlr_gamma_control_manager_v1_create] at h
  · intro c hc
    have : tracked (wlr_gamma_control_manager_v1_create calloc_ok global_ok) = [] := by
      simp only [tracked, wlr_gamma_control_manager_v1_create]
      cases calloc_ok <;> cases global_ok <;> simp
    rw [this] at hc
    cases hc
  · intro c
    simp [live, gamma_control_from_resource, wlr_gamma_control_manager_v1_create]
  · simp only [tracked, wlr_gamma_control_manager_v1_create]
    cases calloc_ok <;> cases global_ok <;> simp

theorem WF_of_reachable {env : Env} {st : State} {trace : List Event}
    (h : Reachable env st trace) : WF st := by
  obtain ⟨a, b, ops, hrun⟩ := h
  have := (Sound_run env ops (WF_create a b)).1
  rw [hrun] at this
  exact this

/-- In a reachable state, no reset has been issued yet for a live control
object, nor for a handle not yet drawn. -/
theorem no_reset_yet {env : Env} {st : State} {trace : List Event}
    (h : Reachable env st trace) (r : Nat)
    (hr : (gamma_control_from_resource st r).isSome = true ∨ st.next_id ≤ r) :
    trace.filter (is_reset_of r) = [] := by
  obtain ⟨a, b, ops, hrun⟩ := h
  have hs := (Sound_run env ops (WF_create a b)).2 r
  rw [hrun] at hs
  exact hs.fresh (Nat.zero_le r) hr

theorem run_append (env : Env) (ops1 ops2 : List Op) :
    ∀ st : State, run env st (ops1 ++ ops2) =
      ((run env (run env st ops1).1 ops2).1,
       (run env st ops1).2 ++ (run env (run env st ops1).1 ops2).2) := by
  induction ops1 with
  | nil => intro st; simp [run]
  | cons op ops ih =>
    intro st
    show run env st (op :: (ops ++ ops2)) = _
    simp only [run, ih, List.append_assoc]

theorem to_size_t_natCast (k : Nat) (h : k < 2 ^ 64) : to_size_t (k : Int) = k := by
  unfold to_size_t
  have h1 : ((k : Int)) % 2 ^ 64 = k := by
    apply Int.emod_eq_of_lt (Int.natCast_nonneg k)
    exact_mod_cast h
  rw [h1]
  exact Int.toNat_natCast k

theorem table_size_eq (n : Nat) (h : n * 3 < 2 ^ 32) : table_size n = n * 3 * 2 := by
  unfold table_size
  rw [Nat.mod_eq_of_lt h, Nat.mod_eq_of_lt]
  omega

theorem wl_resource_destroy_live {st : State} {gc : wlr_gamma_control_v1}
    (hg : live st gc) :
    wl_resource_destroy st gc.resource =
      (release_session (gamma_control_destroy st (some gc)).1 gc.resource,
       [Event.output_set_gamma gc.resource gc.output 0 none,
        Event.resource_destroy gc.resource]) := by
  unfold live at hg
  unfold wl_resource_destroy gamma_control_handle_resource_destroy
  rw [hg]
  rfl

theorem manager_release (st : State) (x : Nat) :
    (release_session st x).manager = st.manager := rfl

theorem session_exists_wl_resource_destroy (st : State) (x r : Nat) :
    session_exists (wl_resource_destroy st x).1 r =
      if r = x then false else session_exists st r := by
  unfold wl_resource_destroy gamma_control_handle_resource_destroy
  simp only []
  rw [session_exists_release]
  cases gamma_control_from_resource st x with
  | none => rfl
  | some gc => rw [session_exists_destroy]

theorem session_exists_destroy_controls (l : List wlr_gamma_control_v1) :
    ∀ (st : State) (r : Nat), session_exists (destroy_controls st l).1 r = true →
      session_exists st r = true ∧ ∀ c ∈ l, c.resource ≠ r := by
  induction l with
  | nil => intro st r h; exact ⟨h, by simp⟩
  | cons gc rest ih =>
    intro st r h
    obtain ⟨h1, h2⟩ := ih (wl_resource_destroy st gc.resource).1 r h
    rw [session_exists_wl_resource_destroy] at h1
    by_cases hr : r = gc.resource
    · simp [hr] at h1
    · simp only [hr, if_false] at h1
      refine ⟨h1, ?_⟩
      intro c hc
      rcases List.mem_cons.mp hc with rfl | hc
      · exact fun e => hr e.symm
      · exact h2 c hc

/-- The first loop of the manager's destruction, on control objects that are
all live: its events, and what is left of the manager. -/
theorem destroy_controls_spec {l : List wlr_gamma_control_v1} :
    ∀ {st : State}, WF st → (∀ c ∈ l, live st c) → l.Nodup →
      (destroy_controls st l).2 = teardown_events l ∧
      (destroy_controls st l).1.manager =
        st.manager.map fun m =>
          { m with controls := m.controls.filter fun c => decide (c ∉ l) } := by
  induction l with
  | nil =>
    intro st _ _ _
    refine ⟨rfl, ?_⟩
    cases hm : st.manager <;> simp [destroy_controls, hm]
  | cons gc rest ih =>
    intro st wf hl hnd
    have hg : live st gc := hl gc (List.mem_cons_self _ _)
    have h1 := Sound_wl_resource_destroy wf gc.resource
    have hrest : ∀ c ∈ rest, live (wl_resource_destroy st gc.resource).1 c := by
      intro c hc
      rw [live_wl_resource_destroy_iff wf hg]
      refine ⟨hl c (List.mem_cons_of_mem _ hc), ?_⟩
      rintro rfl
      exact (List.nodup_cons.mp hnd).1 hc
    obtain ⟨e1, e2⟩ := ih h1.1 hrest (List.nodup_cons.mp hnd).2
    simp only [destroy_controls]
    rw [e1, e2, wl_resource_destroy_live hg]
    refine ⟨rfl, ?_⟩
    simp only [manager_release, gamma_control_destroy, remove_control]
    cases st.manager with
    | none => rfl
    | some m =>
      simp only [Option.map_some', List.filter_filter]
      congr 2
      apply List.filter_congr
      intro c _
      simp only [List.mem_cons, not_or, ne_eq, decide_not, Bool.decide_and]
      exact Bool.and_comm _ _

theorem destroy_resources_spec (l : List Nat) :
    ∀ st : State,
      (destroy_resources st l).2 = l.map Event.resource_destroy ∧
      (destroy_resources st l).1 =
        { st with manager := st.manager.map fun m =>
            { m with resources := m.resources.filter fun r => decide (r ∉ l) } } := by
  induction l with
  | nil =>
    intro st
    refine ⟨rfl, ?_⟩
    cases st with
    | mk manager sessions listeners next_id =>
      cases manager <;> simp [destroy_resources]
  | cons x rest ih =>
    intro st
    obtain ⟨e1, e2⟩ := ih (wl_resource_destroy_endpoint st x).1
    simp only [destroy_resources]
    rw [e1, e2]
    refine ⟨rfl, ?_⟩
    simp only [wl_resource_destroy_endpoint, gamma_control_manager_handle_resource_destroy]
    cases st.manager with
    | none => rfl
    | some m =>
      simp only [Option.map_some', List.filter_filter]
      congr 4
      funext c
      simp only [List.mem_cons, not_or, ne_eq, decide_not, Bool.decide_and]
      exact Bool.and_comm _ _

theorem filter_not_mem_self {α : Type} [DecidableEq α] (l : List α) :
    l.filter (fun c => decide (c ∉ l)) = [] := by
  rw [List.filter_eq_nil_iff]
  intro a ha
  simp [ha]

/-- The two loops of the manager's destruction in a state that satisfies the
invariant: the events, and the manager left with two empty lists. -/
theorem manager_destroy_loops_spec {st : State} (wf : WF st)
    {m : wlr_gamma_control_manager_v1} (hm : st.manager = some m) :
    (manager_destroy_loops st m).2 =
      teardown_events m.controls ++ m.resources.map Event.resource_destroy ∧
    (manager_destroy_loops st m).1.manager = some { resources := [], controls := [] } ∧
    (manager_destroy_loops st m).1.sessions = (destroy_controls st m.controls).1.sessions := by
  have htr : tracked st = m.controls := by simp [tracked, hm]
  have hl : ∀ c ∈ m.controls, live st c := by rw [← htr]; exact wf.tracked_live
  have hnd : m.controls.Nodup := by rw [← htr]; exact tracked_nodup wf
  obtain ⟨e1, e2⟩ := destroy_controls_spec wf hl hnd
  rw [hm] at e2
  simp only [Option.map_some', filter_not_mem_self] at e2
  unfold manager_destroy_loops
  simp only [e2]
  obtain ⟨e3, e4⟩ := destroy_resources_spec m.resources (destroy_controls st m.controls).1
  rw [e3, e4, e1, e2]
  simp [filter_not_mem_self]

theorem live_notify_iff {l : List wlr_gamma_control_v1} :
    ∀ {st : State}, WF st → (∀ c ∈ l, live st c) → l.Nodup →
      ∀ c, live (notify_output_listeners st l).1 c ↔ live st c ∧ c ∉ l := by
  induction l with
  | nil => intro st _ _ _ c; simp [notify_output_listeners]
  | cons gc rest ih =>
    intro st wf hl hnd c
    have hg : live st gc := hl gc (List.mem_cons_self _ _)
    have h1 := Sound_destroy wf hg
    have hrest : ∀ c ∈ rest, live (gamma_control_destroy st (some gc)).1 c := by
      intro c hc
      rw [live_destroy_iff hg]
      refine ⟨hl c (List.mem_cons_of_mem _ hc), ?_⟩
      rintro rfl
      exact (List.nodup_cons.mp hnd).1 hc
    have := ih h1.1 hrest (List.nodup_cons.mp hnd).2 c
    simp only [notify_output_listeners, gamma_control_handle_output_destroy]
    rw [this, live_destroy_iff hg]
    simp only [List.mem_cons, not_or]
    tauto

theorem filter_on_session_nil_of_touches {r : Nat} {ev : List Event}
    (h : ev.filter (touches r) = []) : ev.filter (on_session r) = [] := by
  rw [List.filter_eq_nil_iff] at h ⊢
  intro e he hr
  apply h e he
  cases e <;> simp_all [on_session, touches]

/-! ## The claims -/

/-- C1 (fails on the code): after three `get_gamma_control` requests for the
same supporting output 7, a reachable state, the control objects of the
second and of the third request (sessions 2 and 3) are both live and both
target output 7, while only the third is tracked. -/
theorem C1_two_live_controls_on_one_output :
    live run_three.1 ⟨2, 7⟩ ∧ live run_three.1 ⟨3, 7⟩ ∧
    (⟨2, 7⟩ : wlr_gamma_control_v1).output = (⟨3, 7⟩ : wlr_gamma_control_v1).output ∧
    tracked run_three.1 = [⟨3, 7⟩] ∧
    Reachable env256 run_three.1 run_three.2 :=
  ⟨by decide, by decide, rfl, by decide, ⟨true, true, _, rfl⟩⟩

/-- C2 (fails on the code): with gamma size 256 and client A tracked on output
7 (session 1), the request of client B for output 7 sends `failed` to A and
resets the output, then returns: B (session 2) is live but not tracked, the
tracked set is empty, and the three events hold no `gamma_size` (256 here). -/
theorem C2_second_requester_not_tracked :
    st_one.manager = some { resources := [0], controls := [⟨1, 7⟩] } ∧
    (gamma_control_manager_get_gamma_control env256 st_one
      { resources := [0], controls := [⟨1, 7⟩] } 7 true true).2 =
      [Event.resource_create 2, Event.send_failed 1, Event.output_set_gamma 1 7 0 none] ∧
    tracked (gamma_control_manager_get_gamma_control env256 st_one
      { resources := [0], controls := [⟨1, 7⟩] } 7 true true).1 = [] ∧
    live (gamma_control_manager_get_gamma_control env256 st_one
      { resources := [0], controls := [⟨1, 7⟩] } 7 true true).1 ⟨2, 7⟩ ∧
    wlr_output_get_gamma_size env256 7 = 256 := by
  decide

/-- C3: on a supporting output that no tracked control object targets, with
both allocations succeeding, `get_gamma_control` emits the creation of the new
session and one `gamma_size` event on it carrying the output's gamma size, and
nothing else (no `failed`, no `wlr_output_set_gamma` call); the new control
object, bound to that output, is put in front of the tracked list, which is
otherwise as before; it is live; every other session keeps its user data. -/
theorem C3_get_gamma_control_tracks_new (env : Env) (st : State)
    (m : wlr_gamma_control_manager_v1) (output : Nat)
    (hm : st.manager = some m)
    (hsup : env.impl_set_gamma output = true)
    (hfree : ∀ c ∈ m.controls, c.output ≠ output) :
    (gamma_control_manager_get_gamma_control env st m output true true).2 =
      [Event.resource_create st.next_id,
       Event.send_gamma_size st.next_id (wlr_output_get_gamma_size env output)] ∧
    tracked (gamma_control_manager_get_gamma_control env st m output true true).1 =
      ⟨st.next_id, output⟩ :: tracked st ∧
    bound (gamma_control_manager_get_gamma_control env st m output true true).1 =
      bound st ∧
    (∀ r, gamma_control_from_resource
        (gamma_control_manager_get_gamma_control env st m output true true).1 r =
      if r = st.next_id then some ⟨st.next_id, output⟩
      else gamma_control_from_resource st r) ∧
    (∀ r, Event.send_failed r ∉
      (gamma_control_manager_get_gamma_control env st m output true true).2) ∧
    (gamma_control_manager_get_gamma_control env st m output true true).2.filter
      is_output_call = [] := by
  have hfind : (m.controls.find? fun gc => decide (gc.output = output)) = none := by
    rw [List.find?_eq_none]
    intro c hc
    simpa using hfree c hc
  have hres : gamma_control_manager_get_gamma_control env st m output true true =
      (insert_control (new_gamma_control st ⟨st.next_id, output⟩) m ⟨st.next_id, output⟩,
       [Event.resource_create st.next_id,
        Event.send_gamma_size st.next_id (wlr_output_get_gamma_size env output)]) := by
    simp [gamma_control_manager_get_gamma_control, hsup, hfind]
  rw [hres]
  refine ⟨rfl, ?_, ?_, ?_, ?_, ?_⟩
  · simp [tracked, insert_control, hm]
  · simp [bound, insert_control, hm]
  · intro r
    exact from_resource_new st ⟨st.next_id, output⟩ r
  · intro r
    simp
  · simp [is_output_call]

/-- C3 at a concrete input: one bound endpoint, output 7 with no controller. -/
theorem C3_witness :
    (gamma_control_manager_get_gamma_control env256 st_bound
        { resources := [0], controls := [] } 7 true true).2 =
      [Event.resource_create 1, Event.send_gamma_size 1 256] ∧
    tracked (gamma_control_manager_get_gamma_control env256 st_bound
        { resources := [0], controls := [] } 7 true true).1 = [⟨1, 7⟩] :=
  have h := C3_get_gamma_control_tracks_new env256 st_bound
    { resources := [0], controls := [] } 7 (by decide) (by decide) (by decide)
  ⟨h.1, h.2.1⟩

/-- C4: a control object that is live in a reachable state has no passthrough
reset in its history so far; after any further deliveries its whole history
holds no reset while it is live and exactly one, on its own output, once it
is destroyed, whatever destroyed it (client destroy, failure inside
`set_gamma`, supersession, output destroy, manager destroy), and the session's
destroy handler then finds the user data cleared and does nothing.  A control
object created on an output without gamma support is destroyed within the
request that creates it, and its whole history, whatever follows, holds
exactly one reset, on its output. -/
theorem C4_exactly_one_reset (env : Env) (st : State) (trace : List Event) (ops : List Op)
    (hreach : Reachable env st trace) :
    (∀ c, live st c →
      (trace ++ (run env st ops).2).filter (is_reset_of c.resource) =
        (if live (run env st ops).1 c then []
         else [Event.output_set_gamma c.resource c.output 0 none]) ∧
      (¬ live (run env st ops).1 c →
        gamma_control_handle_resource_destroy (run env st ops).1 c.resource =
          ((run env st ops).1, []))) ∧
    (∀ m output, st.manager = some m → env.impl_set_gamma output = false →
      (trace ++ (gamma_control_manager_get_gamma_control env st m output true true).2
        ++ (run env (gamma_control_manager_get_gamma_control env st m output true
          true).1 ops).2).filter (is_reset_of st.next_id) =
        [Event.output_set_gamma st.next_id output 0 none]) := by
  have wf := WF_of_reachable hreach
  constructor
  · intro c hc
    have hs := (Sound_run env ops wf).2 c.resource
    have hpast := no_reset_yet hreach c.resource (by unfold live at hc; rw [hc]; exact Or.inl rfl)
    rw [List.filter_append, hpast, List.nil_append]
    unfold live at hc ⊢
    rcases hs.active c hc with ⟨h1, h2⟩ | ⟨h1, h2⟩
    · refine ⟨by rw [if_pos h1]; exact h2, fun hn => absurd h1 hn⟩
    · refine ⟨by rw [if_neg (by rw [h1]; simp)]; exact h2, fun _ => ?_⟩
      unfold gamma_control_handle_resource_destroy
      rw [h1]
      rfl
  · intro m output hm hsup
    have hpast := no_reset_yet hreach st.next_id (Or.inr le_rfl)
    have hget : gamma_control_manager_get_gamma_control env st m output true true =
        ((gamma_control_destroy (new_gamma_control st ⟨st.next_id, output⟩)
            (some ⟨st.next_id, output⟩)).1,
          [Event.resource_create st.next_id, Event.send_failed st.next_id,
           Event.output_set_gamma st.next_id output 0 none]) := by
      simp [gamma_control_manager_get_gamma_control, hsup, gamma_control_destroy]
    have hsg := Sound_get_gamma_control wf hm env output true true
    rw [hget] at hsg ⊢
    have hnone : gamma_control_from_resource
        (gamma_control_destroy (new_gamma_control st ⟨st.next_id, output⟩)
          (some ⟨st.next_id, output⟩)).1 st.next_id = none := by
      rw [from_resource_destroy]; simp
    have hlt : st.next_id < (gamma_control_destroy
        (new_gamma_control st ⟨st.next_id, output⟩)
          (some ⟨st.next_id, output⟩)).1.next_id := by
      rw [next_id_destroy]; exact Nat.lt_succ_self _
    have hrun := ((Sound_run env ops hsg.1).2 st.next_id).inert hnone hlt
    rw [List.filter_append, List.filter_append, hpast,
      filter_reset_nil_of_touches hrun.2]
    simp [is_reset_of]

/-- C4 at a concrete input: the control of output 7 is destroyed by its client
(one reset on output 7), and a control requested for the unsupported output 8
gets one reset on output 8. -/
theorem C4_witness :
    Reachable env_mixed run_one.1 run_one.2 ∧ live run_one.1 ⟨1, 7⟩ ∧
    (run_one.2 ++ (run env_mixed run_one.1 [Op.destroy 1]).2).filter (is_reset_of 1) =
      [Event.output_set_gamma 1 7 0 none] ∧
    (run_one.2 ++ (gamma_control_manager_get_gamma_control env_mixed run_one.1
        { resources := [0], controls := [⟨1, 7⟩] } 8 true true).2
      ++ (run env_mixed (gamma_control_manager_get_gamma_control env_mixed run_one.1
        { resources := [0], controls := [⟨1, 7⟩] } 8 true true).1 [Op.destroy 1]).2).filter
        (is_reset_of 2) =
      [Event.output_set_gamma 2 8 0 none] :=
  have h := C4_exactly_one_reset env_mixed run_one.1 run_one.2 [Op.destroy 1]
    ⟨true, true, _, rfl⟩
  ⟨⟨true, true, _, rfl⟩, by decide, (h.1 ⟨1, 7⟩ (by decide)).1,
    h.2 { resources := [0], controls := [⟨1, 7⟩] } 8 rfl rfl⟩

/-- C5: on a live control object whose output reports gamma size `n` (with
`n * 3` fitting 32 bits), with a stream whose length check passes or is
unavailable, whose flags can be read and set, and whose read returns
`n * 3 * 2` bytes holding `r ++ g ++ b` (each of `n` samples), `set_gamma`
calls `wlr_output_set_gamma` with tables exactly once, with size `n` and
`r`, `g`, `b` in stream order.  If the output accepts, the events are the
allocation, that call and the release of the table, no `failed` and no error
is sent, and the state is unchanged, so the control object stays live and
tracked.  If the output rejects, `failed` is sent and the object destroyed. -/
theorem C5_set_gamma_applies_in_order (env : Env) (st : State) (x : Nat)
    (gc : wlr_gamma_control_v1) (fd : Stream) (r g b : List Nat) (output_ok : Bool)
    (hlive : gamma_control_from_resource st x = some gc)
    (hn : wlr_output_get_gamma_size env gc.output * 3 < 2 ^ 32)
    (hlen : fd.fd_size = -1 ∨
      to_size_t fd.fd_size = table_size (wlr_output_get_gamma_size env gc.output))
    (hget : fd.getfl ≠ -1) (hset : fd.setfl ≠ -1)
    (hread : fd.n_read = ((wlr_output_get_gamma_size env gc.output * 3 * 2 : Nat) : Int))
    (hdata : fd.data = r ++ g ++ b)
    (hr : r.length = wlr_output_get_gamma_size env gc.output)
    (hg : g.length = wlr_output_get_gamma_size env gc.output)
    (hb : b.length = wlr_output_get_gamma_size env gc.output) :
    (gamma_control_handle_set_gamma env st x fd true output_ok).2.filter is_apply_call =
      [Event.output_set_gamma gc.resource gc.output
        (wlr_output_get_gamma_size env gc.output) (some (r, g, b))] ∧
    (output_ok = true →
      gamma_control_handle_set_gamma env st x fd true output_ok =
        (st, [Event.malloc_table (wlr_output_get_gamma_size env gc.output * 3 * 2),
          Event.output_set_gamma gc.resource gc.output
            (wlr_output_get_gamma_size env gc.output) (some (r, g, b)),
          Event.free_table])) ∧
    (output_ok = false →
      gamma_control_handle_set_gamma env st x fd true output_ok =
        ((gamma_control_destroy st (some gc)).1,
         [Event.malloc_table (wlr_output_get_gamma_size env gc.output * 3 * 2),
          Event.output_set_gamma gc.resource gc.output
            (wlr_output_get_gamma_size env gc.output) (some (r, g, b)),
          Event.send_failed gc.resource,
          Event.output_set_gamma gc.resource gc.output 0 none,
          Event.free_table, Event.close fd.fd])) := by
  have hts := table_size_eq _ hn
  have hlt : wlr_output_get_gamma_size env gc.output * 3 * 2 < 2 ^ 64 := by omega
  have hc1 : ¬ (fd.fd_size ≠ -1 ∧
      to_size_t fd.fd_size ≠ table_size (wlr_output_get_gamma_size env gc.output)) := by
    rintro ⟨h1, h2⟩
    rcases hlen with h | h
    · exact h1 h
    · exact h2 h
  have hc2 : ¬ (fd.n_read = -1 ∨
      to_size_t fd.n_read ≠ table_size (wlr_output_get_gamma_size env gc.output)) := by
    rw [hread, to_size_t_natCast _ hlt, hts]
    rintro (h | h)
    · omega
    · exact h rfl
  have htab : set_gamma_tables env gc fd = (r, g, b) := by
    have h2n : (2 * wlr_output_get_gamma_size env gc.output) % 2 ^ 32 =
        2 * wlr_output_get_gamma_size env gc.output :=
      Nat.mod_eq_of_lt (by omega)
    simp only [set_gamma_tables, hts, hdata, h2n]
    have h3 : wlr_output_get_gamma_size env gc.output * 3 * 2 / 2 = (r ++ g ++ b).length := by
      simp only [List.length_append, hr, hg, hb]; omega
    rw [h3, List.take_length]
    have e1 : List.take (wlr_output_get_gamma_size env gc.output) (r ++ g ++ b) = r := by
      rw [List.append_assoc, ← hr, List.take_left]
    have e2 : List.drop (wlr_output_get_gamma_size env gc.output) (r ++ g ++ b) = g ++ b := by
      rw [List.append_assoc, ← hr, List.drop_left]
    have e3 : List.drop (2 * wlr_output_get_gamma_size env gc.output) (r ++ g ++ b) = b := by
      have : 2 * wlr_output_get_gamma_size env gc.output = (r ++ g).length := by
        simp only [List.length_append, hr, hg]; omega
      rw [this, List.drop_left]
    rw [e1, e2, e3]
    have e4 : List.take (wlr_output_get_gamma_size env gc.output) (g ++ b) = g := by
      rw [← hg, List.take_left]
    have e5 : List.take (wlr_output_get_gamma_size env gc.output) b = b := by
      rw [← hb, List.take_length]
    rw [e4, e5]
  cases output_ok with
  | true =>
    have hres : gamma_control_handle_set_gamma env st x fd true true =
        (st, [Event.malloc_table (wlr_output_get_gamma_size env gc.output * 3 * 2),
          Event.output_set_gamma gc.resource gc.output
            (wlr_output_get_gamma_size env gc.output) (some (r, g, b)),
          Event.free_table]) := by
      unfold gamma_control_handle_set_gamma
      rw [hlive]
      simp only []
      rw [if_neg hc1, if_neg hget, if_neg hset, if_neg (by simp), if_neg hc2,
        if_neg (by simp), htab, hts]
    rw [hres]
    exact ⟨by simp [is_apply_call], fun _ => rfl, fun h => by cases h⟩
  | false =>
    have hres : gamma_control_handle_set_gamma env st x fd true false =
        ((gamma_control_destroy st (some gc)).1,
         [Event.malloc_table (wlr_output_get_gamma_size env gc.output * 3 * 2),
          Event.output_set_gamma gc.resource gc.output
            (wlr_output_get_gamma_size env gc.output) (some (r, g, b)),
          Event.send_failed gc.resource,
          Event.output_set_gamma gc.resource gc.output 0 none,
          Event.free_table, Event.close fd.fd]) := by
      unfold gamma_control_handle_set_gamma
      rw [hlive]
      simp only []
      rw [if_neg hc1, if_neg hget, if_neg hset, if_neg (by simp), if_neg hc2,
        if_pos trivial, htab, hts]
      rfl
    rw [hres]
    exact ⟨by simp [is_apply_call], (fun h => by cases h), fun _ => rfl⟩

/-- C5 at a concrete input: gamma size 2, a 12-byte stream holding
`[10, 11]`, `[20, 21]`, `[30, 31]`, accepted by the output. -/
theorem C5_witness :
    gamma_control_from_resource run_two.1 1 = some ⟨1, 7⟩ ∧
    gamma_control_handle_set_gamma env2 run_two.1 1 fd_full true true =
      (run_two.1, [Event.malloc_table 12,
        Event.output_set_gamma 1 7 2 (some ([10, 11], [20, 21], [30, 31])),
        Event.free_table]) :=
  ⟨by decide,
   (C5_set_gamma_applies_in_order env2 run_two.1 1 ⟨1, 7⟩ fd_full [10, 11] [20, 21]
      [30, 31] true (by decide) (by decide) (by decide) (by decide) (by decide)
      (by decide) (by decide) (by decide) (by decide) (by decide)).2.1 rfl⟩

/-- C6: on a live control object, a stream whose length is known and differs
from the expected byte count makes `set_gamma` post the invalid-size error on
the session and close the stream, and nothing else: no
`wlr_output_set_gamma` call, no `failed`, and the state is unchanged, so the
control object is still live, tracked and subscribed. -/
theorem C6_length_mismatch_is_protocol_error (env : Env) (st : State)
    (gc : wlr_gamma_control_v1) (fd : Stream) (malloc_ok output_ok : Bool)
    (hlive : live st gc)
    (hknown : fd.fd_size ≠ -1)
    (hne : to_size_t fd.fd_size ≠ table_size (wlr_output_get_gamma_size env gc.output)) :
    gamma_control_handle_set_gamma env st gc.resource fd malloc_ok output_ok =
      (st, [Event.post_error_invalid_gamma gc.resource, Event.close fd.fd]) := by
  unfold live at hlive
  unfold gamma_control_handle_set_gamma
  rw [hlive]
  simp only []
  rw [if_pos ⟨hknown, hne⟩]

/-- C6 at a concrete input: gamma size 2 (12 bytes expected), declared length
11. -/
theorem C6_witness :
    live run_two.1 ⟨1, 7⟩ ∧
    gamma_control_handle_set_gamma env2 run_two.1 1 fd_short_declared true true =
      (run_two.1, [Event.post_error_invalid_gamma 1, Event.close 5]) :=
  ⟨by decide,
   C6_length_mismatch_is_protocol_error env2 run_two.1 ⟨1, 7⟩ fd_short_declared true true
     (by decide) (by decide) (by decide)⟩

/-- C7: on a live control object, with a stream whose length cannot be
inspected (`lseek` gives -1) and whose read fails or returns another number
of bytes than expected, `set_gamma` (the table allocation succeeding) leaves
the state `gamma_control_destroy` gives: the session has no control object
any more, the object is neither tracked nor subscribed.  On the session
exactly one `failed` is sent and nothing else, the invalid-size error is not
posted, and the only `wlr_output_set_gamma` call is the passthrough reset. -/
theorem C7_short_read_is_soft_failure (env : Env) (st : State)
    (gc : wlr_gamma_control_v1) (fd : Stream) (output_ok : Bool)
    (hlive : live st gc)
    (hunknown : fd.fd_size = -1)
    (hread : fd.n_read = -1 ∨
      to_size_t fd.n_read ≠ table_size (wlr_output_get_gamma_size env gc.output)) :
    (gamma_control_handle_set_gamma env st gc.resource fd true output_ok).1 =
      (gamma_control_destroy st (some gc)).1 ∧
    gamma_control_from_resource
      (gamma_control_handle_set_gamma env st gc.resource fd true output_ok).1
      gc.resource = none ∧
    gc ∉ tracked (gamma_control_handle_set_gamma env st gc.resource fd true output_ok).1 ∧
    gc ∉ (gamma_control_handle_set_gamma env st gc.resource fd true output_ok).1.listeners ∧
    (gamma_control_handle_set_gamma env st gc.resource fd true output_ok).2.filter
      (on_session gc.resource) = [Event.send_failed gc.resource] ∧
    (∀ r, Event.post_error_invalid_gamma r ∉
      (gamma_control_handle_set_gamma env st gc.resource fd true output_ok).2) ∧
    (gamma_control_handle_set_gamma env st gc.resource fd true output_ok).2.filter
      is_output_call = [Event.output_set_gamma gc.resource gc.output 0 none] := by
  have hc1 : ¬ (fd.fd_size ≠ -1 ∧
      to_size_t fd.fd_size ≠ table_size (wlr_output_get_gamma_size env gc.output)) :=
    fun h => h.1 hunknown
  have hstate : ∀ ev : List Event,
      ((gamma_control_destroy st (some gc)).1, ev).1 = (gamma_control_destroy st (some gc)).1 ∧
      gamma_control_from_resource (gamma_control_destroy st (some gc)).1 gc.resource = none ∧
      gc ∉ tracked (gamma_control_destroy st (some gc)).1 ∧
      gc ∉ (gamma_control_destroy st (some gc)).1.listeners := by
    intro ev
    refine ⟨rfl, ?_, ?_, ?_⟩
    · rw [from_resource_destroy]; simp
    · rw [tracked_destroy]; simp
    · rw [listeners_destroy]; simp
  unfold live at hlive
  by_cases hget : fd.getfl = -1
  · have hres : gamma_control_handle_set_gamma env st gc.resource fd true output_ok =
        ((gamma_control_destroy st (some gc)).1,
          [Event.send_failed gc.resource,
           Event.output_set_gamma gc.resource gc.output 0 none, Event.close fd.fd]) := by
      unfold gamma_control_handle_set_gamma
      rw [hlive]
      simp only []
      rw [if_neg hc1, if_pos hget]
      rfl
    rw [hres]
    obtain ⟨h1, h2, h3, h4⟩ := hstate [Event.send_failed gc.resource,
      Event.output_set_gamma gc.resource gc.output 0 none, Event.close fd.fd]
    exact ⟨h1, h2, h3, h4, by simp [on_session], by simp, by simp [is_output_call]⟩
  by_cases hset : fd.setfl = -1
  · have hres : gamma_control_handle_set_gamma env st gc.resource fd true output_ok =
        ((gamma_control_destroy st (some gc)).1,
          [Event.send_failed gc.resource,
           Event.output_set_gamma gc.resource gc.output 0 none, Event.close fd.fd]) := by
      unfold gamma_control_handle_set_gamma
      rw [hlive]
      simp only []
      rw [if_neg hc1, if_neg hget, if_pos hset]
      rfl
    rw [hres]
    obtain ⟨h1, h2, h3, h4⟩ := hstate [Event.send_failed gc.resource,
      Event.output_set_gamma gc.resource gc.output 0 none, Event.close fd.fd]
    exact ⟨h1, h2, h3, h4, by simp [on_session], by simp, by simp [is_output_call]⟩
  · have hres : gamma_control_handle_set_gamma env st gc.resource fd true output_ok =
        ((gamma_control_destroy st (some gc)).1,
          [Event.malloc_table (table_size (wlr_output_get_gamma_size env gc.output)),
           Event.send_failed gc.resource,
           Event.output_set_gamma gc.resource gc.output 0 none,
           Event.free_table, Event.close fd.fd]) := by
      unfold gamma_control_handle_set_gamma
      rw [hlive]
      simp only []
      rw [if_neg hc1, if_neg hget, if_neg hset, if_neg (by simp), if_pos hread]
      rfl
    rw [hres]
    obtain ⟨h1, h2, h3, h4⟩ := hstate
      [Event.malloc_table (table_size (wlr_output_get_gamma_size env gc.output)),
       Event.send_failed gc.resource,
       Event.output_set_gamma gc.resource gc.output 0 none,
       Event.free_table, Event.close fd.fd]
    exact ⟨h1, h2, h3, h4, by simp [on_session], by simp, by simp [is_output_call]⟩

/-- C7 at a concrete input: gamma size 2 (12 bytes expected), a pipe that
yields 4 bytes. -/
theorem C7_witness :
    live run_two.1 ⟨1, 7⟩ ∧
    gamma_control_from_resource
      (gamma_control_handle_set_gamma env2 run_two.1 1 fd_pipe_short true true).1 1 = none ∧
    (gamma_control_handle_set_gamma env2 run_two.1 1 fd_pipe_short true true).2.filter
      (on_session 1) = [Event.send_failed 1] :=
  have h := C7_short_read_is_soft_failure env2 run_two.1 ⟨1, 7⟩ fd_pipe_short true
    (by decide) (by decide) (by decide)
  ⟨by decide, h.2.1, h.2.2.2.2.1⟩

/-- C8: on an output without gamma support, `get_gamma_control` (both
allocations succeeding) creates the session, sends `failed` on it and resets
the output, and nothing else (no `gamma_size`).  The new control object is
destroyed: its session has no control object, it is not subscribed, and the
tracked set and every other session are exactly as before. -/
theorem C8_unsupported_output_fails_new (env : Env) (st : State) (trace : List Event)
    (m : wlr_gamma_control_manager_v1) (output : Nat)
    (hreach : Reachable env st trace)
    (hsup : env.impl_set_gamma output = false) :
    (gamma_control_manager_get_gamma_control env st m output true true).2 =
      [Event.resource_create st.next_id, Event.send_failed st.next_id,
       Event.output_set_gamma st.next_id output 0 none] ∧
    tracked (gamma_control_manager_get_gamma_control env st m output true true).1 =
      tracked st ∧
    (∀ r, gamma_control_from_resource
        (gamma_control_manager_get_gamma_control env st m output true true).1 r =
      if r = st.next_id then none else gamma_control_from_resource st r) ∧
    (gamma_control_manager_get_gamma_control env st m output true true).1.listeners =
      st.listeners ∧
    (∀ r n, Event.send_gamma_size r n ∉
      (gamma_control_manager_get_gamma_control env st m output true true).2) := by
  have wf := WF_of_reachable hreach
  have hget : gamma_control_manager_get_gamma_control env st m output true true =
      ((gamma_control_destroy (new_gamma_control st ⟨st.next_id, output⟩)
          (some ⟨st.next_id, output⟩)).1,
        [Event.resource_create st.next_id, Event.send_failed st.next_id,
         Event.output_set_gamma st.next_id output 0 none]) := by
    simp [gamma_control_manager_get_gamma_control, hsup, gamma_control_destroy]
  have hnl : ¬ live st ⟨st.next_id, output⟩ := by
    intro h
    have := wf.key_lt _ (live_exists h)
    exact absurd this (lt_irrefl _)
  rw [hget]
  refine ⟨rfl, ?_, ?_, ?_, ?_⟩
  · rw [tracked_destroy]
    show (tracked st).filter _ = tracked st
    rw [List.filter_eq_self]
    intro c hc
    have hcl := wf.tracked_live c hc
    have : c ≠ ⟨st.next_id, output⟩ := by rintro rfl; exact hnl hcl
    simpa using this
  · intro r
    rw [from_resource_destroy, from_resource_new]
    by_cases h : r = st.next_id <;> simp [h]
  · rw [listeners_destroy]
    show (st.listeners ++ [_]).filter _ = st.listeners
    rw [List.filter_append, List.filter_eq_self.mpr]
    · simp
    · intro c hc
      have hcl := (wf.listen_iff c).mp hc
      have : c ≠ ⟨st.next_id, output⟩ := by rintro rfl; exact hnl hcl
      simpa using this
  · intro r n
    simp

/-- C8 at a concrete input: output 8 has no gamma support, output 7 is
controlled by session 1. -/
theorem C8_witness :
    Reachable env_mixed run_one.1 run_one.2 ∧
    (gamma_control_manager_get_gamma_control env_mixed run_one.1
        { resources := [0], controls := [⟨1, 7⟩] } 8 true true).2 =
      [Event.resource_create 2, Event.send_failed 2, Event.output_set_gamma 2 8 0 none] ∧
    tracked (gamma_control_manager_get_gamma_control env_mixed run_one.1
        { resources := [0], controls := [⟨1, 7⟩] } 8 true true).1 = [⟨1, 7⟩] :=
  have h := C8_unsupported_output_fails_new env_mixed run_one.1 run_one.2
    { resources := [0], controls := [⟨1, 7⟩] } 8 ⟨true, true, _, rfl⟩ rfl
  ⟨⟨true, true, _, rfl⟩, h.1, h.2.1⟩

/-- C9: `wlr_gamma_control_manager_v1_destroy` without a manager does nothing.
With a manager, in a reachable state, its calls are, in this order: for each
tracked control object the passthrough reset of its output and the release of
its session, then the release of each bound endpoint, then the release of the
global.  After the two loops both lists of the manager are empty; at the end
there is no manager, every formerly tracked session is released and its
control object is no longer subscribed. -/
theorem C9_manager_destroy_order (env : Env) (st : State) (trace : List Event)
    (hreach : Reachable env st trace) :
    (st.manager = none → wlr_gamma_control_manager_v1_destroy st = (st, [])) ∧
    (∀ m, st.manager = some m →
      (wlr_gamma_control_manager_v1_destroy st).2 =
        teardown_events m.controls ++ m.resources.map Event.resource_destroy
          ++ [Event.global_destroy] ∧
      (manager_destroy_loops st m).1.manager = some { resources := [], controls := [] } ∧
      (wlr_gamma_control_manager_v1_destroy st).1.manager = none ∧
      (∀ c ∈ m.controls,
        session_exists (wlr_gamma_control_manager_v1_destroy st).1 c.resource = false ∧
        c ∉ (wlr_gamma_control_manager_v1_destroy st).1.listeners)) := by
  have wf := WF_of_reachable hreach
  constructor
  · intro h
    unfold wlr_gamma_control_manager_v1_destroy
    rw [h]
  · intro m hm
    obtain ⟨e1, e2, e3⟩ := manager_destroy_loops_spec wf hm
    have hfin := (Sound_manager_destroy wf).1
    have hres : wlr_gamma_control_manager_v1_destroy st =
        ({ (manager_destroy_loops st m).1 with manager := none },
         (manager_destroy_loops st m).2 ++ [Event.global_destroy]) := by
      unfold wlr_gamma_control_manager_v1_destroy
      rw [hm]
    rw [hres] at hfin ⊢
    refine ⟨by rw [e1], e2, rfl, ?_⟩
    intro c hc
    have hse : session_exists
        ({ (manager_destroy_loops st m).1 with manager := none } : State) c.resource
          = false := by
      cases hx : session_exists
        ({ (manager_destroy_loops st m).1 with manager := none } : State) c.resource with
      | false => rfl
      | true =>
        have hx2 : session_exists (destroy_controls st m.controls).1 c.resource = true := by
          simp only [session_exists] at hx ⊢
          rw [← e3]
          exact hx
        exact absurd rfl ((session_exists_destroy_controls m.controls st c.resource hx2).2 c hc)
    refine ⟨hse, ?_⟩
    intro hmem
    have hl := live_exists ((hfin.listen_iff c).mp hmem)
    rw [hse] at hl
    cases hl

/-- C9 at a concrete input: two control objects on outputs 7 and 8. -/
theorem C9_witness :
    Reachable env256 run_pair.1 run_pair.2 ∧
    run_pair.1.manager = some { resources := [0], controls := [⟨2, 8⟩, ⟨1, 7⟩] } ∧
    (wlr_gamma_control_manager_v1_destroy run_pair.1).2 =
      [Event.output_set_gamma 2 8 0 none, Event.resource_destroy 2,
       Event.output_set_gamma 1 7 0 none, Event.resource_destroy 1,
       Event.resource_destroy 0, Event.global_destroy] :=
  ⟨⟨true, true, _, rfl⟩, rfl,
   ((C9_manager_destroy_order env256 run_pair.1 run_pair.2 ⟨true, true, _, rfl⟩).2
      { resources := [0], controls := [⟨2, 8⟩, ⟨1, 7⟩] } rfl).1⟩

/-- C10: when the output of a live control object is destroyed, the object
leaves the tracked set and the output's listeners and its session loses its
user data.  Whatever is delivered afterwards, nothing is sent on that session
and no `wlr_output_set_gamma` call is made for it; in every later state a
`set_gamma` on the session only closes the stream and leaves the state as it
is, and a destroy of the session only releases it, with no reset. -/
theorem C10_output_destroy_silences_session (env : Env) (st : State) (trace : List Event)
    (c : wlr_gamma_control_v1) (ops : List Op)
    (hreach : Reachable env st trace) (hlive : live st c) :
    c ∉ tracked (output_destroy st c.output).1 ∧
    c ∉ (output_destroy st c.output).1.listeners ∧
    gamma_control_from_resource (output_destroy st c.output).1 c.resource = none ∧
    (run env (output_destroy st c.output).1 ops).2.filter (on_session c.resource) = [] ∧
    (run env (output_destroy st c.output).1 ops).2.filter (touches c.resource) = [] ∧
    (∀ fd malloc_ok output_ok,
      gamma_control_handle_set_gamma env (run env (output_destroy st c.output).1 ops).1
          c.resource fd malloc_ok output_ok =
        ((run env (output_destroy st c.output).1 ops).1, [Event.close fd.fd])) ∧
    gamma_control_handle_destroy (run env (output_destroy st c.output).1 ops).1 c.resource =
      (release_session (run env (output_destroy st c.output).1 ops).1 c.resource,
       [Event.resource_destroy c.resource]) := by
  have wf := WF_of_reachable hreach
  have hs1 := Sound_output_destroy wf c.output
  have hmem : c ∈ st.listeners.filter fun gc => decide (gc.output = c.output) := by
    rw [List.mem_filter]
    exact ⟨(wf.listen_iff c).mpr hlive, by simp⟩
  have hall : ∀ x ∈ st.listeners.filter fun gc => decide (gc.output = c.output),
      live st x := fun x hx => (wf.listen_iff x).mp (List.mem_filter.mp hx).1
  have hnl : ¬ live (output_destroy st c.output).1 c := by
    unfold output_destroy
    rw [live_notify_iff wf hall (wf.listen_nodup.filter _)]
    exact fun h => h.2 hmem
  have hnone : gamma_control_from_resource (output_destroy st c.output).1 c.resource
      = none := by
    rcases (hs1.2 c.resource).active c hlive with ⟨h, _⟩ | ⟨h, _⟩
    · exact absurd h hnl
    · exact h
  have hlt : c.resource < (output_destroy st c.output).1.next_id :=
    lt_of_lt_of_le (wf.key_lt _ (live_exists hlive)) (hs1.2 c.resource).mono
  obtain ⟨hfin, htouch⟩ := ((Sound_run env ops hs1.1).2 c.resource).inert hnone hlt
  refine ⟨fun h => hnl (hs1.1.tracked_live c h), fun h => hnl ((hs1.1.listen_iff c).mp h),
    hnone, filter_on_session_nil_of_touches htouch, htouch, ?_, ?_⟩
  · intro fd malloc_ok output_ok
    unfold gamma_control_handle_set_gamma
    rw [hfin]
  · unfold gamma_control_handle_destroy wl_resource_destroy
      gamma_control_handle_resource_destroy
    rw [hfin]
    rfl

/-- C10 at a concrete input: output 7 is destroyed while session 1 controls
it; a `set_gamma` with a full stream and a destroy follow. -/
theorem C10_witness :
    Reachable env2 run_two.1 run_two.2 ∧ live run_two.1 ⟨1, 7⟩ ∧
    tracked (output_destroy run_two.1 7).1 = [] ∧
    (run env2 (output_destroy run_two.1 7).1
      [Op.set_gamma 1 fd_full true true, Op.destroy 1]).2 =
      [Event.close 5, Event.resource_destroy 1] ∧
    (run env2 (output_destroy run_two.1 7).1
      [Op.set_gamma 1 fd_full true true, Op.destroy 1]).2.filter (touches 1) = [] :=
  ⟨⟨true, true, _, rfl⟩, by decide, by decide, by decide,
   (C10_output_destroy_silences_session env2 run_two.1 run_two.2 ⟨1, 7⟩
      [Op.set_gamma 1 fd_full true true, Op.destroy 1] ⟨true, true, _, rfl⟩
      (by decide)).2.2.2.2.1⟩

/-! ## The exits of `set_gamma` -/

/-- The six exits of gamma_control_handle_set_gamma on a session with a
control object, each with the tests that lead to it, the state and the
events. -/
theorem set_gamma_cases (env : Env) (st : State) (x : Nat) (gc : wlr_gamma_control_v1)
    (fd : Stream) (malloc_ok output_ok : Bool)
    (h : gamma_control_from_resource st x = some gc) :
    (length_mismatch env gc fd ∧
      gamma_control_handle_set_gamma env st x fd malloc_ok output_ok =
        (st, [Event.post_error_invalid_gamma x, Event.close fd.fd])) ∨
    (¬ length_mismatch env gc fd ∧ (fd.getfl = -1 ∨ fd.setfl = -1) ∧
      gamma_control_handle_set_gamma env st x fd malloc_ok output_ok =
        ((gamma_control_destroy st (some gc)).1,
         [Event.send_failed gc.resource, reset_event gc, Event.close fd.fd])) ∨
    (¬ length_mismatch env gc fd ∧ fd.getfl ≠ -1 ∧ fd.setfl ≠ -1 ∧ malloc_ok = false ∧
      gamma_control_handle_set_gamma env st x fd malloc_ok output_ok =
        (st, [Event.post_no_memory x, Event.close fd.fd])) ∨
    (¬ length_mismatch env gc fd ∧ fd.getfl ≠ -1 ∧ fd.setfl ≠ -1 ∧ malloc_ok = true ∧
      read_failed env gc fd ∧
      gamma_control_handle_set_gamma env st x fd malloc_ok output_ok =
        ((gamma_control_destroy st (some gc)).1,
         [Event.malloc_table (table_size (wlr_output_get_gamma_size env gc.output)),
          Event.send_failed gc.resource, reset_event gc,
          Event.free_table, Event.close fd.fd])) ∨
    (¬ length_mismatch env gc fd ∧ fd.getfl ≠ -1 ∧ fd.setfl ≠ -1 ∧ malloc_ok = true ∧
      ¬ read_failed env gc fd ∧ output_ok = false ∧
      gamma_control_handle_set_gamma env st x fd malloc_ok output_ok =
        ((gamma_control_destroy st (some gc)).1,
         [Event.malloc_table (table_size (wlr_output_get_gamma_size env gc.output)),
          apply_event env gc fd, Event.send_failed gc.resource, reset_event gc,
          Event.free_table, Event.close fd.fd])) ∨
    (¬ length_mismatch env gc fd ∧ fd.getfl ≠ -1 ∧ fd.setfl ≠ -1 ∧ malloc_ok = true ∧
      ¬ read_failed env gc fd ∧ output_ok = true ∧
      gamma_control_handle_set_gamma env st x fd malloc_ok output_ok =
        (st, [Event.malloc_table (table_size (wlr_output_get_gamma_size env gc.output)),
          apply_event env gc fd, Event.free_table])) := by
  unfold gamma_control_handle_set_gamma
  rw [h]
  simp only []
  by_cases h1 : length_mismatch env gc fd
  · left
    exact ⟨h1, by unfold length_mismatch at h1; rw [if_pos h1]⟩
  right
  have h1' := h1
  unfold length_mismatch at h1'
  rw [if_neg h1']
  by_cases h2 : fd.getfl = -1
  · left
    exact ⟨h1, Or.inl h2, by rw [if_pos h2]; rfl⟩
  rw [if_neg h2]
  by_cases h3 : fd.setfl = -1
  · left
    exact ⟨h1, Or.inr h3, by rw [if_pos h3]; rfl⟩
  right
  rw [if_neg h3]
  cases malloc_ok with
  | false =>
    left
    exact ⟨h1, h2, h3, rfl, by rw [if_pos rfl]⟩
  | true =>
    right
    rw [if_neg (by simp)]
    by_cases h4 : read_failed env gc fd
    · left
      have h4' := h4
      unfold read_failed at h4'
      exact ⟨h1, h2, h3, rfl, h4, by rw [if_pos h4']; rfl⟩
    right
    have h4' := h4
    unfold read_failed at h4'
    rw [if_neg h4']
    cases output_ok with
    | false =>
      left
      exact ⟨h1, h2, h3, rfl, h4, rfl, by rw [if_pos rfl]; rfl⟩
    | true =>
      right
      exact ⟨h1, h2, h3, rfl, h4, rfl, by rw [if_neg (by simp)]; rfl⟩

/-- C11: on each soft failure inside `set_gamma` on a live control object (the
stream's flags cannot be read or set, the read is short or fails, or the
output rejects the ramp), exactly one `failed` event is sent, on that session,
no protocol error and no out-of-memory error is posted, the control object is
destroyed with exactly one passthrough reset of its output and is no longer
tracked; the tracked list is the former one without it, the bound endpoints
and the user data of every other session are unchanged. -/
theorem C11_soft_failure_frame (env : Env) (st : State) (gc : wlr_gamma_control_v1)
    (fd : Stream) (malloc_ok output_ok : Bool)
    (hlive : live st gc)
    (hsoft : soft_failure env gc fd malloc_ok output_ok) :
    (gamma_control_handle_set_gamma env st gc.resource fd malloc_ok output_ok).2.filter
      is_failed = [Event.send_failed gc.resource] ∧
    (gamma_control_handle_set_gamma env st gc.resource fd malloc_ok output_ok).2.filter
      is_error = [] ∧
    (gamma_control_handle_set_gamma env st gc.resource fd malloc_ok output_ok).2.filter
      (is_reset_of gc.resource) = [reset_event gc] ∧
    tracked (gamma_control_handle_set_gamma env st gc.resource fd malloc_ok output_ok).1 =
      (tracked st).filter (fun c => decide (c ≠ gc)) ∧
    gc ∉ tracked (gamma_control_handle_set_gamma env st gc.resource fd malloc_ok output_ok).1 ∧
    bound (gamma_control_handle_set_gamma env st gc.resource fd malloc_ok output_ok).1 =
      bound st ∧
    (∀ r, gamma_control_from_resource
        (gamma_control_handle_set_gamma env st gc.resource fd malloc_ok output_ok).1 r =
      if r = gc.resource then none else gamma_control_from_resource st r) := by
  have hstate : tracked (gamma_control_destroy st (some gc)).1 =
        (tracked st).filter (fun c => decide (c ≠ gc)) ∧
      gc ∉ tracked (gamma_control_destroy st (some gc)).1 ∧
      bound (gamma_control_destroy st (some gc)).1 = bound st ∧
      (∀ r, gamma_control_from_resource (gamma_control_destroy st (some gc)).1 r =
        if r = gc.resource then none else gamma_control_from_resource st r) :=
    ⟨tracked_destroy st gc, by rw [tracked_destroy]; simp, bound_destroy st gc,
      from_resource_destroy st gc⟩
  obtain ⟨hlen, hfail⟩ := hsoft
  unfold live at hlive
  rcases set_gamma_cases env st gc.resource gc fd malloc_ok output_ok hlive with
    ⟨h1, _⟩ | ⟨_, _, e⟩ | ⟨_, h2, h3, h4, _⟩ | ⟨_, _, _, _, _, e⟩ | ⟨_, _, _, _, _, _, e⟩ |
    ⟨_, h2, h3, _, h5, h6, _⟩
  · exact absurd h1 hlen
  · rw [e]
    exact ⟨by simp [is_failed, reset_event], by simp [is_error, reset_event],
      by simp [is_reset_of, reset_event], hstate⟩
  · rcases hfail with h | h | ⟨h, _⟩
    · exact absurd h h2
    · exact absurd h h3
    · rw [h4] at h; cases h
  · rw [e]
    exact ⟨by simp [is_failed, reset_event], by simp [is_error, reset_event],
      by simp [is_reset_of, reset_event], hstate⟩
  · rw [e]
    exact ⟨by simp [is_failed, reset_event, apply_event],
      by simp [is_error, reset_event, apply_event],
      by simp [is_reset_of, reset_event, apply_event], hstate⟩
  · rcases hfail with h | h | ⟨_, h | h⟩
    · exact absurd h h2
    · exact absurd h h3
    · exact absurd h h5
    · rw [h6] at h; cases h

/-- C11 at a concrete input: gamma size 2, a 12-byte stream whose flags cannot
be read, with a second control object tracked on output 8. -/
theorem C11_witness :
    live (run env2 run_two.1 [Op.get_gamma_control 0 8 true true]).1 ⟨1, 7⟩ ∧
    soft_failure env2 ⟨1, 7⟩ fd_no_flags true true ∧
    (gamma_control_handle_set_gamma env2
      (run env2 run_two.1 [Op.get_gamma_control 0 8 true true]).1 1 fd_no_flags true
      true).2.filter is_failed = [Event.send_failed 1] ∧
    tracked (gamma_control_handle_set_gamma env2
      (run env2 run_two.1 [Op.get_gamma_control 0 8 true true]).1 1 fd_no_flags true
      true).1 = [⟨2, 8⟩] :=
  have h := C11_soft_failure_frame env2
    (run env2 run_two.1 [Op.get_gamma_control 0 8 true true]).1 ⟨1, 7⟩ fd_no_flags true true
    (by decide) (by decide)
  ⟨by decide, by decide, h.1, h.2.2.2.1⟩

/-- C12 (fails on the code): after two `get_gamma_control` requests for output
7, a reachable state, the control object of the second request (session 2) is
live but not tracked; `wlr_gamma_control_manager_v1_destroy` then makes no
call at all for it (only the endpoint and the global are released) and leaves
it live and subscribed to the output's destroy signal. -/
theorem C12_untracked_control_survives_manager_destroy :
    Reachable env256 run_superseded.1 run_superseded.2 ∧
    live run_superseded.1 ⟨2, 7⟩ ∧
    (wlr_gamma_control_manager_v1_destroy run_superseded.1).2 =
      [Event.resource_destroy 0, Event.global_destroy] ∧
    live (wlr_gamma_control_manager_v1_destroy run_superseded.1).1 ⟨2, 7⟩ ∧
    (wlr_gamma_control_manager_v1_destroy run_superseded.1).1.listeners = [⟨2, 7⟩] :=
  ⟨⟨true, true, _, rfl⟩, by decide, by decide, by decide, by decide⟩

/-- C13 (fails on the code): for the 32-bit ramp size 1431655766 the byte
count `table_size` is 4, not the product 1431655766 * 3 * 2 = 8589934596. -/
theorem C13_table_size_wraps :
    1431655766 < 2 ^ 32 ∧ table_size 1431655766 = 4 ∧
    1431655766 * 3 * 2 = 8589934596 ∧ table_size 1431655766 ≠ 1431655766 * 3 * 2 := by
  decide

/-- C18 (fails on the code): on the successful path (gamma size 2, a full
12-byte stream, the output accepts) `set_gamma` allocates, applies and frees,
and makes no `close` call on the stream handle. -/
theorem C18_success_path_leaves_stream_open :
    gamma_control_from_resource run_two.1 1 = some ⟨1, 7⟩ ∧
    (gamma_control_handle_set_gamma env2 run_two.1 1 fd_full true true).2 =
      [Event.malloc_table 12,
       Event.output_set_gamma 1 7 2 (some ([10, 11], [20, 21], [30, 31])),
       Event.free_table] ∧
    (gamma_control_handle_set_gamma env2 run_two.1 1 fd_full true true).2.filter
      is_close = [] := by
  decide

/-- C19 (fails on the code): with the 32-bit ramp size 1431655766 and a
stream of 4 bytes, `set_gamma` allocates a table of `table_size` = 4 bytes,
reads it in full and reaches the apply step with size 1431655766, while the
three segments need 3 * 1431655766 * 2 = 8589934596 bytes. -/
theorem C19_segments_exceed_table :
    gamma_control_from_resource run_big.1 1 = some ⟨1, 7⟩ ∧
    wlr_output_get_gamma_size env_big 7 = 1431655766 ∧
    (gamma_control_handle_set_gamma env_big run_big.1 1 fd_four true true).2.filter
      is_table_event = [Event.malloc_table 4, Event.free_table] ∧
    (gamma_control_handle_set_gamma env_big run_big.1 1 fd_four true true).2.filter
      is_apply_call = [apply_event env_big ⟨1, 7⟩ fd_four] ∧
    ¬ (3 * wlr_output_get_gamma_size env_big 7 * 2 ≤
      table_size (wlr_output_get_gamma_size env_big 7)) := by
  decide

/-- C14 as stated fails: with gamma size 2 (12 bytes expected) and a stream of
declared length 11, `set_gamma` on the live control object of session 1 posts
the invalid-size error and returns with the object still live and no
`wlr_output_set_gamma` call made. -/
theorem C14_counterexample :
    live run_two.1 ⟨1, 7⟩ ∧
    ¬ applied_or_destroyed env2 run_two.1 ⟨1, 7⟩ fd_short_declared true true ∧
    live (gamma_control_handle_set_gamma env2 run_two.1 1 fd_short_declared true true).1
      ⟨1, 7⟩ ∧
    (gamma_control_handle_set_gamma env2 run_two.1 1 fd_short_declared true true).2.filter
      is_output_call = [] := by
  decide

/-- C14, amended: a `set_gamma` call on a live control object ends in one of
three ways: the ramp was applied and accepted and the object is still live;
or the object is no longer live; or an error was posted on the session (the
invalid-size error on a length mismatch, the no-memory error when the table
allocation fails), the stream was closed, and the state is unchanged, the
object still live with no `wlr_output_set_gamma` call made. -/
theorem C14_applied_destroyed_or_error (env : Env) (st : State)
    (gc : wlr_gamma_control_v1) (fd : Stream) (malloc_ok output_ok : Bool)
    (hlive : live st gc) :
    applied_or_destroyed env st gc fd malloc_ok output_ok ∨
    ((gamma_control_handle_set_gamma env st gc.resource fd malloc_ok output_ok).1 = st ∧
      live (gamma_control_handle_set_gamma env st gc.resource fd malloc_ok output_ok).1 gc ∧
      (gamma_control_handle_set_gamma env st gc.resource fd malloc_ok output_ok).2.filter
        is_output_call = [] ∧
      ((length_mismatch env gc fd ∧
          (gamma_control_handle_set_gamma env st gc.resource fd malloc_ok output_ok).2 =
            [Event.post_error_invalid_gamma gc.resource, Event.close fd.fd]) ∨
       (malloc_ok = false ∧
          (gamma_control_handle_set_gamma env st gc.resource fd malloc_ok output_ok).2 =
            [Event.post_no_memory gc.resource, Event.close fd.fd]))) := by
  have hdead : ¬ live (gamma_control_destroy st (some gc)).1 gc := by
    unfold live
    rw [from_resource_destroy]
    simp
  have hl := hlive
  unfold live at hl
  unfold applied_or_destroyed
  rcases set_gamma_cases env st gc.resource gc fd malloc_ok output_ok hl with
    ⟨h1, e⟩ | ⟨_, _, e⟩ | ⟨_, _, _, h4, e⟩ | ⟨_, _, _, _, _, e⟩ | ⟨_, _, _, _, _, _, e⟩ |
    ⟨_, _, _, _, _, h6, e⟩
  · right
    rw [e]
    exact ⟨rfl, hlive, by simp [is_output_call], Or.inl ⟨h1, rfl⟩⟩
  · left; right; rw [e]; exact hdead
  · right
    rw [e]
    exact ⟨rfl, hlive, by simp [is_output_call], Or.inr ⟨h4, rfl⟩⟩
  · left; right; rw [e]; exact hdead
  · left; right; rw [e]; exact hdead
  · left; left
    rw [e]
    exact ⟨by simp [is_apply_call, apply_event], h6, hlive⟩

/-- C14, amended, at a concrete input: the declared length 11 gives the third
outcome. -/
theorem C14_witness :
    live run_two.1 ⟨1, 7⟩ ∧
    (applied_or_destroyed env2 run_two.1 ⟨1, 7⟩ fd_short_declared true true ∨
     ((gamma_control_handle_set_gamma env2 run_two.1 1 fd_short_declared true true).1 =
        run_two.1 ∧
      live (gamma_control_handle_set_gamma env2 run_two.1 1 fd_short_declared true true).1
        ⟨1, 7⟩ ∧
      (gamma_control_handle_set_gamma env2 run_two.1 1 fd_short_declared true true).2.filter
        is_output_call = [] ∧
      ((length_mismatch env2 ⟨1, 7⟩ fd_short_declared ∧
          (gamma_control_handle_set_gamma env2 run_two.1 1 fd_short_declared true true).2 =
            [Event.post_error_invalid_gamma 1, Event.close 5]) ∨
       (true = false ∧
          (gamma_control_handle_set_gamma env2 run_two.1 1 fd_short_declared true true).2 =
            [Event.post_no_memory 1, Event.close 5])))) :=
  ⟨by decide,
   C14_applied_destroyed_or_error env2 run_two.1 ⟨1, 7⟩ fd_short_declared true true
     (by decide)⟩

/-- C15: in every state, with or without control objects, when the
allocation of the control object or of its session fails, `get_gamma_control`
posts the client's no-memory error and nothing else, and leaves the whole
state as it was (so the tracked set keeps any controller of that output).
When the table allocation of `set_gamma` on a live control object fails (the
length check and both flag calls having passed), the no-memory error is
posted on the session, the stream is closed, nothing else happens and the
state is as it was, the object live and tracked. -/
theorem C15_allocation_failure (env : Env) (st : State) :
    (∀ (m : wlr_gamma_control_manager_v1) (output : Nat) (calloc_ok resource_ok : Bool),
      (calloc_ok = false ∨ resource_ok = false) →
      gamma_control_manager_get_gamma_control env st m output calloc_ok resource_ok =
        (st, [Event.client_post_no_memory])) ∧
    (∀ (gc : wlr_gamma_control_v1) (fd : Stream) (output_ok : Bool),
      live st gc → ¬ length_mismatch env gc fd → fd.getfl ≠ -1 → fd.setfl ≠ -1 →
      gamma_control_handle_set_gamma env st gc.resource fd false output_ok =
        (st, [Event.post_no_memory gc.resource, Event.close fd.fd])) := by
  constructor
  · intro m output calloc_ok resource_ok halloc
    unfold gamma_control_manager_get_gamma_control
    rcases halloc with h | h
    · rw [if_pos h]
    · by_cases hc : calloc_ok = false
      · rw [if_pos hc]
      · rw [if_neg hc, if_pos h]
  · intro gc fd output_ok hlive hlen hget hset
    unfold live at hlive
    rcases set_gamma_cases env st gc.resource gc fd false output_ok hlive with
      ⟨h1, _⟩ | ⟨_, h2, _⟩ | ⟨_, _, _, _, e⟩ | ⟨_, _, _, h4, _⟩ | ⟨_, _, _, h4, _⟩ |
      ⟨_, _, _, h4, _⟩
    · exact absurd h1 hlen
    · rcases h2 with h | h
      · exact absurd h hget
      · exact absurd h hset
    · exact e
    · cases h4
    · cases h4
    · cases h4

/-- C15 at concrete inputs: the first request ever, for output 7, whose
control object allocation fails, in a state without any session; then, with
output 7 controlled by session 1, a further request for output 7 whose
session allocation fails, and a `set_gamma` with a full stream whose table
allocation fails. -/
theorem C15_witness :
    st_bound.sessions = [] ∧
    gamma_control_manager_get_gamma_control env256 st_bound
      { resources := [0], controls := [] } 7 false true =
      (st_bound, [Event.client_post_no_memory]) ∧
    live run_two.1 ⟨1, 7⟩ ∧ ¬ length_mismatch env2 ⟨1, 7⟩ fd_full ∧
    gamma_control_manager_get_gamma_control env2 run_two.1
      { resources := [0], controls := [⟨1, 7⟩] } 7 true false =
      (run_two.1, [Event.client_post_no_memory]) ∧
    gamma_control_handle_set_gamma env2 run_two.1 1 fd_full false true =
      (run_two.1, [Event.post_no_memory 1, Event.close 5]) :=
  ⟨by decide,
   (C15_allocation_failure env256 st_bound).1 { resources := [0], controls := [] } 7
     false true (Or.inl rfl),
   by decide, by decide,
   (C15_allocation_failure env2 run_two.1).1 { resources := [0], controls := [⟨1, 7⟩] } 7
     true false (Or.inr rfl),
   (C15_allocation_failure env2 run_two.1).2 ⟨1, 7⟩ fd_full true (by decide) (by decide)
     (by decide) (by decide)⟩

/-- C16: in every state reachable from wlr_gamma_control_manager_v1_create,
no two control objects of the tracked list have the same output, and every
control object of the tracked list is live. -/
theorem C16_tracked_distinct_and_live (env : Env) (st : State) (trace : List Event)
    (hreach : Reachable env st trace) :
    (tracked st).Pairwise (fun a b => a.output ≠ b.output) ∧
    (∀ c ∈ tracked st, live st c) :=
  ⟨(WF_of_reachable hreach).tracked_outputs, (WF_of_reachable hreach).tracked_live⟩

/-- C16 at a concrete input: two control objects tracked on outputs 8 and 7. -/
theorem C16_witness :
    Reachable env256 run_pair.1 run_pair.2 ∧ tracked run_pair.1 = [⟨2, 8⟩, ⟨1, 7⟩] ∧
    (tracked run_pair.1).Pairwise (fun a b => a.output ≠ b.output) ∧
    (∀ c ∈ tracked run_pair.1, live run_pair.1 c) :=
  ⟨⟨true, true, _, rfl⟩, rfl,
   C16_tracked_distinct_and_live env256 run_pair.1 run_pair.2 ⟨true, true, _, rfl⟩⟩

/-- C17: whatever the session, the stream and the outcomes, the table events
of a `set_gamma` call are either none or one allocation followed by one
release.  They are none on an inert session and, on a session with a control
object, when the length check fails, a flag call fails or the allocation
fails; they are the allocation of `table_size` bytes followed by one release
when the allocation is reached and succeeds (short read, rejected apply and
success alike). -/
theorem C17_table_freed_exactly_once (env : Env) (st : State) (x : Nat) (fd : Stream)
    (malloc_ok output_ok : Bool) :
    ((gamma_control_handle_set_gamma env st x fd malloc_ok output_ok).2.filter
        is_table_event = [] ∨
      ∃ n, (gamma_control_handle_set_gamma env st x fd malloc_ok output_ok).2.filter
        is_table_event = [Event.malloc_table n, Event.free_table]) ∧
    (gamma_control_from_resource st x = none →
      (gamma_control_handle_set_gamma env st x fd malloc_ok output_ok).2.filter
        is_table_event = []) ∧
    (∀ gc, gamma_control_from_resource st x = some gc →
      (length_mismatch env gc fd ∨ fd.getfl = -1 ∨ fd.setfl = -1 ∨ malloc_ok = false) →
      (gamma_control_handle_set_gamma env st x fd malloc_ok output_ok).2.filter
        is_table_event = []) ∧
    (∀ gc, gamma_control_from_resource st x = some gc →
      ¬ length_mismatch env gc fd → fd.getfl ≠ -1 → fd.setfl ≠ -1 → malloc_ok = true →
      (gamma_control_handle_set_gamma env st x fd malloc_ok output_ok).2.filter
        is_table_event =
        [Event.malloc_table (table_size (wlr_output_get_gamma_size env gc.output)),
         Event.free_table]) := by
  have hnone : gamma_control_from_resource st x = none →
      (gamma_control_handle_set_gamma env st x fd malloc_ok output_ok).2.filter
        is_table_event = [] := by
    intro h
    unfold gamma_control_handle_set_gamma
    rw [h]
    simp [is_table_event]
  have hsome : ∀ gc, gamma_control_from_resource st x = some gc →
      ((length_mismatch env gc fd ∨ fd.getfl = -1 ∨ fd.setfl = -1 ∨ malloc_ok = false) ∧
        (gamma_control_handle_set_gamma env st x fd malloc_ok output_ok).2.filter
          is_table_event = []) ∨
      ((¬ length_mismatch env gc fd ∧ fd.getfl ≠ -1 ∧ fd.setfl ≠ -1 ∧ malloc_ok = true) ∧
        (gamma_control_handle_set_gamma env st x fd malloc_ok output_ok).2.filter
          is_table_event =
          [Event.malloc_table (table_size (wlr_output_get_gamma_size env gc.output)),
           Event.free_table]) := by
    intro gc h
    rcases set_gamma_cases env st x gc fd malloc_ok output_ok h with
      ⟨h1, e⟩ | ⟨_, h2, e⟩ | ⟨_, _, _, h4, e⟩ | ⟨h1, h2, h3, h4, _, e⟩ |
      ⟨h1, h2, h3, h4, _, _, e⟩ | ⟨h1, h2, h3, h4, _, _, e⟩
    · left
      exact ⟨Or.inl h1, by rw [e]; simp [is_table_event]⟩
    · left
      refine ⟨?_, by rw [e]; simp [is_table_event, reset_event]⟩
      rcases h2 with h | h
      · exact Or.inr (Or.inl h)
      · exact Or.inr (Or.inr (Or.inl h))
    · left
      exact ⟨Or.inr (Or.inr (Or.inr h4)), by rw [e]; simp [is_table_event]⟩
    · right
      exact ⟨⟨h1, h2, h3, h4⟩, by rw [e]; simp [is_table_event, reset_event]⟩
    · right
      exact ⟨⟨h1, h2, h3, h4⟩, by rw [e]; simp [is_table_event, reset_event, apply_event]⟩
    · right
      exact ⟨⟨h1, h2, h3, h4⟩, by rw [e]; simp [is_table_event, apply_event]⟩
  refine ⟨?_, hnone, ?_, ?_⟩
  · cases h : gamma_control_from_resource st x with
    | none => exact Or.inl (hnone h)
    | some gc =>
      rcases hsome gc h with ⟨_, e⟩ | ⟨_, e⟩
      · exact Or.inl e
      · exact Or.inr ⟨_, e⟩
  · intro gc h hpre
    rcases hsome gc h with ⟨_, e⟩ | ⟨⟨h1, h2, h3, h4⟩, _⟩
    · exact e
    · rcases hpre with hp | hp | hp | hp
      · exact absurd hp h1
      · exact absurd hp h2
      · exact absurd hp h3
      · rw [h4] at hp; cases hp
  · intro gc h h1 h2 h3 h4
    rcases hsome gc h with ⟨hp, _⟩ | ⟨_, e⟩
    · rcases hp with hp | hp | hp | hp
      · exact absurd hp h1
      · exact absurd hp h2
      · exact absurd hp h3
      · rw [h4] at hp; cases hp
    · exact e

/-- C17 at concrete inputs: gamma size 2; a pipe that yields 4 of 12 bytes
(allocation, then one release), and a stream whose flags cannot be read (no
table event). -/
theorem C17_witness :
    gamma_control_from_resource run_two.1 1 = some ⟨1, 7⟩ ∧
    (gamma_control_handle_set_gamma env2 run_two.1 1 fd_pipe_short true true).2.filter
      is_table_event = [Event.malloc_table 12, Event.free_table] ∧
    (gamma_control_handle_set_gamma env2 run_two.1 1 fd_no_flags true true).2.filter
      is_table_event = [] :=
  ⟨by decide,
   (C17_table_freed_exactly_once env2 run_two.1 1 fd_pipe_short true true).2.2.2 ⟨1, 7⟩
     (by decide) (by decide) (by decide) (by decide) rfl,
   (C17_table_freed_exactly_once env2 run_two.1 1 fd_no_flags true true).2.2.1 ⟨1, 7⟩
     (by decide) (by decide)⟩

end GammaControl
